import Mathlib

/-!
Verification development for the Vault proxy configuration engine
(package `pkg/proxy/service`): a shallow embedding of the path
classifier, the action executors, the orchestration (`Configure`,
`Unseal`), the Vault client factory helpers, and the error/string
translation helpers, together with theorems about the spec's claims.

Go strings are modelled as `List Char`; Go maps as association lists in
which insertion overwrites (Go map iteration order is unspecified, so
the list order plays the role of the iteration order); the `error`
interface as `Option (List Char)` carrying the message (`none` = nil);
filesystem reads and Vault API calls as oracles supplied as explicit
arguments, with the sequence of issued Vault API calls returned as an
explicit trace.
-/

/-- Go strings, modelled as lists of characters. -/
abbrev GoStr := List Char

/-- Go errors, modelled by their message; `none` is the nil error. -/
abbrev GoError := Option GoStr

/-- Model of strings.HasPre fix from the Go standard library: does `s`
start with `p`? -/
def hasStart : GoStr → GoStr → Bool
  | _, [] => true
  | [], _ :: _ => false
  | c :: s, p :: ps => c == p && hasStart s ps

/-- Model of strings.HasSuf fix from the Go standard library: does `s`
end with `p`? -/
def hasEnd (s p : GoStr) : Bool :=
  hasStart s.reverse p.reverse

/-- Drop the last `n` characters of `s`, as the Go slice expression
s[:len(s)-n] does when `n ≤ len(s)`. -/
def dropEnd (s : GoStr) (n : Nat) : GoStr :=
  s.take (s.length - n)

/-- The directory component returned by filepath.Split: everything up
to and including the final slash of the path. -/
def splitDirOf : GoStr → GoStr
  | [] => []
  | c :: rest =>
    if rest.contains '/' then c :: splitDirOf rest
    else if c == '/' then ['/'] else []

/-- Model of regexp.MatchString with the pattern ".json": true iff the
name contains a character other than a newline immediately followed by
the literal characters json. This is the filter actually applied by
filesByExt (the extension argument is used as a regular expression, not
as a suffix). -/
def matchDotJson : GoStr → Bool
  | [] => false
  | c :: rest => (c != '\n' && hasStart rest ('j' :: 's' :: 'o' :: 'n' :: [])) || matchDotJson rest

/-- Model of strconv.ParseBool from the Go standard library. -/
def goParseBool (s : GoStr) : Option Bool :=
  if s == "1".data || s == "t".data || s == "T".data || s == "TRUE".data
      || s == "true".data || s == "True".data then some true
  else if s == "0".data || s == "f".data || s == "F".data || s == "FALSE".data
      || s == "false".data || s == "False".data then some false
  else none

/-- ConfigActionType from config_path_meta.go. -/
inductive ConfigActionType where
  | sysMountAdd
  | sysMountUpdate
  | sysAuthAdd
  | sysAuthDelete
  | sysPolicyAdd
  | sysPolicyDelete
deriving DecidableEq, Repr

/-- ConfigPathMeta from config_path_meta.go: one entry per discovered
configuration file. -/
structure ConfigPathMeta where
  fullPath : GoStr
  basePath : GoStr
  vaultEndPoint : GoStr
  configPath : GoStr
  action : ConfigActionType
  file : GoStr
deriving DecidableEq, Repr

/-- A Go map from string to ConfigPathMeta, as an association list whose
order stands for the (unspecified) Go map iteration order. -/
abbrev ReqMap := List (GoStr × ConfigPathMeta)

/-- Insertion into a Go map: overwrites any existing entry at the key. -/
def mapInsert (m : ReqMap) (k : GoStr) (v : ConfigPathMeta) : ReqMap :=
  (k, v) :: m.filter (fun p => !(p.1 == k))

/-- Lookup in a Go map. -/
def mapFind (m : ReqMap) (k : GoStr) : Option ConfigPathMeta :=
  (m.find? (fun p => p.1 == k)).map (fun p => p.2)

/-- The namespace literal for mounts used by findSysMounts. -/
def sysmountslit : GoStr := "/sys/mounts/".data

/-- The namespace literal for auth backends used by findSysAuths. -/
def sysauthslit : GoStr := "/sys/auth/".data

/-- The namespace literal for policies used by findSysPolicies. -/
def syspolicylit : GoStr := "/sys/policy/".data

/-- The action literal for tune requests. -/
def tunelit : GoStr := "/tune/".data

/-- The action literal for disable requests. -/
def disablelit : GoStr := "/disable/".data

/-- The action literal for add requests (a bare trailing slash). -/
def addlit : GoStr := "/".data

/-- configOptsExp from config_path_meta.go: the expanded, internal
working state of one Configure invocation. -/
structure ConfigOptsExp where
  configID : GoStr
  token : GoStr
  sourceDir : GoStr
  actions : List ConfigActionType
  sysMountAddReq : ReqMap
  sysMountUpdReq : ReqMap
  sysAuthAddReq : ReqMap
  sysAuthDelReq : ReqMap
  sysPolicyAddReq : ReqMap
  sysPolicyDelReq : ReqMap
deriving DecidableEq, Repr

/-- One entry of the filesystem walk performed by filesByExt: the full
path of the visited node, its base name, and whether it is a directory. -/
structure WalkEntry where
  path : GoStr
  name : GoStr
  isDir : Bool
deriving DecidableEq, Repr

/-- filesByExt from config_path_meta.go, applied to the walk of the
search path with the extension argument ".json": wraps every visited
non-directory whose name matches the regular expression ".json" in a
ConfigPathMeta (remaining fields at their Go zero values). The walk
itself is an input; the early return for a missing search path is the
empty walk. -/
def filesByExt (searchpath : GoStr) : List WalkEntry → List ConfigPathMeta
  | [] => []
  | f :: rest =>
    if !f.isDir && matchDotJson f.name then
      { fullPath := f.path, basePath := searchpath, vaultEndPoint := [],
        configPath := [], action := ConfigActionType.sysMountAdd,
        file := f.name } :: filesByExt searchpath rest
    else filesByExt searchpath rest

/-- The body of the classification loop of findSysMounts
(sys_mounts.go, lines 59 to 102), acting on the pair of the add map and
the tune map being built. -/
def findSysMountsStep (acc : ReqMap × ReqMap) (meta : ConfigPathMeta) : ReqMap × ReqMap :=
  if hasStart ((splitDirOf meta.fullPath).drop meta.basePath.length) sysmountslit then
    if hasEnd (((splitDirOf meta.fullPath).drop meta.basePath.length).drop sysmountslit.length) tunelit then
      (acc.1,
       mapInsert acc.2
         (dropEnd (((splitDirOf meta.fullPath).drop meta.basePath.length).drop sysmountslit.length) tunelit.length)
         { meta with
             vaultEndPoint := sysmountslit,
             configPath := dropEnd (((splitDirOf meta.fullPath).drop meta.basePath.length).drop sysmountslit.length) tunelit.length,
             action := ConfigActionType.sysMountUpdate })
    else if hasEnd (((splitDirOf meta.fullPath).drop meta.basePath.length).drop sysmountslit.length) disablelit then
      acc
    else if hasEnd (((splitDirOf meta.fullPath).drop meta.basePath.length).drop sysmountslit.length) addlit then
      (mapInsert acc.1
         (dropEnd (((splitDirOf meta.fullPath).drop meta.basePath.length).drop sysmountslit.length) addlit.length)
         { meta with
             vaultEndPoint := sysmountslit,
             configPath := dropEnd (((splitDirOf meta.fullPath).drop meta.basePath.length).drop sysmountslit.length) addlit.length,
             action := ConfigActionType.sysMountAdd },
       acc.2)
    else acc
  else acc

/-- The final assignment block of findSysMounts (sys_mounts.go, lines
104 to 115): store the two maps and append each discovered action kind
when its map is non-empty. -/
def finishSysMounts (opts : ConfigOptsExp) (maps : ReqMap × ReqMap) : ConfigOptsExp :=
  let opts1 := { opts with sysMountAddReq := maps.1 }
  let opts2 :=
    if maps.1.isEmpty then opts1
    else { opts1 with actions := opts1.actions ++ [ConfigActionType.sysMountAdd] }
  let opts3 := { opts2 with sysMountUpdReq := maps.2 }
  if maps.2.isEmpty then opts3
  else { opts3 with actions := opts3.actions ++ [ConfigActionType.sysMountUpdate] }

/-- findSysMounts from sys_mounts.go: classify the discovered files
against the /sys/mounts/ namespace. -/
def findSysMounts (opts : ConfigOptsExp) (metaset : List ConfigPathMeta) : ConfigOptsExp :=
  if metaset.isEmpty then opts
  else finishSysMounts opts (metaset.foldl findSysMountsStep ([], []))

/-- The body of the classification loop of findSysAuths (middleware.go):
tune is unsupported for auth backends and skipped; disable and add are
recorded. -/
def findSysAuthsStep (acc : ReqMap × ReqMap) (meta : ConfigPathMeta) : ReqMap × ReqMap :=
  if hasStart ((splitDirOf meta.fullPath).drop meta.basePath.length) sysauthslit then
    if hasEnd (((splitDirOf meta.fullPath).drop meta.basePath.length).drop sysauthslit.length) tunelit then
      acc
    else if hasEnd (((splitDirOf meta.fullPath).drop meta.basePath.length).drop sysauthslit.length) disablelit then
      (acc.1,
       mapInsert acc.2
         (dropEnd (((splitDirOf meta.fullPath).drop meta.basePath.length).drop sysauthslit.length) disablelit.length)
         { meta with
             vaultEndPoint := sysauthslit,
             configPath := dropEnd (((splitDirOf meta.fullPath).drop meta.basePath.length).drop sysauthslit.length) disablelit.length,
             action := ConfigActionType.sysAuthDelete })
    else if hasEnd (((splitDirOf meta.fullPath).drop meta.basePath.length).drop sysauthslit.length) addlit then
      (mapInsert acc.1
         (dropEnd (((splitDirOf meta.fullPath).drop meta.basePath.length).drop sysauthslit.length) addlit.length)
         { meta with
             vaultEndPoint := sysauthslit,
             configPath := dropEnd (((splitDirOf meta.fullPath).drop meta.basePath.length).drop sysauthslit.length) addlit.length,
             action := ConfigActionType.sysAuthAdd },
       acc.2)
    else acc
  else acc

/-- The final assignment block of findSysAuths. -/
def finishSysAuths (opts : ConfigOptsExp) (maps : ReqMap × ReqMap) : ConfigOptsExp :=
  let opts1 := { opts with sysAuthAddReq := maps.1 }
  let opts2 :=
    if maps.1.isEmpty then opts1
    else { opts1 with actions := opts1.actions ++ [ConfigActionType.sysAuthAdd] }
  let opts3 := { opts2 with sysAuthDelReq := maps.2 }
  if maps.2.isEmpty then opts3
  else { opts3 with actions := opts3.actions ++ [ConfigActionType.sysAuthDelete] }

/-- findSysAuths from middleware.go: classify the discovered files
against the /sys/auth/ namespace. -/
def findSysAuths (opts : ConfigOptsExp) (metaset : List ConfigPathMeta) : ConfigOptsExp :=
  if metaset.isEmpty then opts
  else finishSysAuths opts (metaset.foldl findSysAuthsStep ([], []))

/-- The body of the classification loop of findSysPolicies
(sys_policy.go): tune is unsupported for policies and skipped; disable
and add are recorded. -/
def findSysPoliciesStep (acc : ReqMap × ReqMap) (meta : ConfigPathMeta) : ReqMap × ReqMap :=
  if hasStart ((splitDirOf meta.fullPath).drop meta.basePath.length) syspolicylit then
    if hasEnd (((splitDirOf meta.fullPath).drop meta.basePath.length).drop syspolicylit.length) tunelit then
      acc
    else if hasEnd (((splitDirOf meta.fullPath).drop meta.basePath.length).drop syspolicylit.length) disablelit then
      (acc.1,
       mapInsert acc.2
         (dropEnd (((splitDirOf meta.fullPath).drop meta.basePath.length).drop syspolicylit.length) disablelit.length)
         { meta with
             vaultEndPoint := syspolicylit,
             configPath := dropEnd (((splitDirOf meta.fullPath).drop meta.basePath.length).drop syspolicylit.length) disablelit.length,
             action := ConfigActionType.sysPolicyDelete })
    else if hasEnd (((splitDirOf meta.fullPath).drop meta.basePath.length).drop syspolicylit.length) addlit then
      (mapInsert acc.1
         (dropEnd (((splitDirOf meta.fullPath).drop meta.basePath.length).drop syspolicylit.length) addlit.length)
         { meta with
             vaultEndPoint := syspolicylit,
             configPath := dropEnd (((splitDirOf meta.fullPath).drop meta.basePath.length).drop syspolicylit.length) addlit.length,
             action := ConfigActionType.sysPolicyAdd },
       acc.2)
    else acc
  else acc

/-- The final assignment block of findSysPolicies. -/
def finishSysPolicies (opts : ConfigOptsExp) (maps : ReqMap × ReqMap) : ConfigOptsExp :=
  let opts1 := { opts with sysPolicyAddReq := maps.1 }
  let opts2 :=
    if maps.1.isEmpty then opts1
    else { opts1 with actions := opts1.actions ++ [ConfigActionType.sysPolicyAdd] }
  let opts3 := { opts2 with sysPolicyDelReq := maps.2 }
  if maps.2.isEmpty then opts3
  else { opts3 with actions := opts3.actions ++ [ConfigActionType.sysPolicyDelete] }

/-- findSysPolicies from sys_policy.go: classify the discovered files
against the /sys/policy/ namespace. -/
def findSysPolicies (opts : ConfigOptsExp) (metaset : List ConfigPathMeta) : ConfigOptsExp :=
  if metaset.isEmpty then opts
  else finishSysPolicies opts (metaset.foldl findSysPoliciesStep ([], []))

/-- categorize from config_path_meta.go: discover the json files of the
fetched bundle (the walk of the source directory is an explicit input)
and run the three namespace classifiers over the same metaset. -/
def categorize (opts : ConfigOptsExp) (walk : List WalkEntry) : ConfigOptsExp :=
  let metaset := filesByExt opts.sourceDir walk
  findSysPolicies (findSysAuths (findSysMounts opts metaset) metaset) metaset

/-- The message of ErrSrcReqEmpty. -/
def errSrcReqEmptyMsg : GoStr :=
  "no valid vault configuration files were found in source directory submitted".data

/-- The fresh configOptsExp built by validate before categorization. -/
def initConfigOpts (requestid token srcdata : GoStr) : ConfigOptsExp :=
  { configID := requestid, token := token, sourceDir := srcdata,
    actions := [], sysMountAddReq := [], sysMountUpdReq := [],
    sysAuthAddReq := [], sysAuthDelReq := [],
    sysPolicyAddReq := [], sysPolicyDelReq := [] }

/-- The classification tail of ConfigOptions.validate
(config_path_meta.go, lines 164 to 187). The environmental steps that
precede it (destination stat, struct validation, retrieval, data
directory stat) are assumed to have succeeded and their outputs (the
generated request id and the fetched data directory with its walk) are
taken as inputs. After categorization, an empty action list is the
ErrSrcReqEmpty failure. -/
def validateOpts (requestid token srcdata : GoStr) (walk : List WalkEntry) :
    ConfigOptsExp × GoError :=
  let cfgState := categorize (initConfigOpts requestid token srcdata) walk
  if cfgState.actions.isEmpty then (cfgState, some errSrcReqEmptyMsg)
  else (cfgState, none)

/-- MountConfigInput from sys_mounts.go: the lease details of a
requested mount, with duration strings. -/
structure MountConfigInput where
  defaultLeaseTTL : GoStr
  maxLeaseTTL : GoStr
deriving DecidableEq, Repr

/-- MountInput from sys_mounts.go. -/
structure MountInput where
  type : GoStr
  description : GoStr
  config : MountConfigInput
deriving DecidableEq, Repr

/-- MountConfigOutput from sys_mounts.go. -/
structure MountConfigOutput where
  defaultLeaseTTL : Int
  maxLeaseTTL : Int
deriving DecidableEq, Repr

/-- MountOutput from sys_mounts.go. -/
structure MountOutput where
  path : GoStr
  type : GoStr
  description : GoStr
  config : MountConfigOutput
deriving DecidableEq, Repr

/-- AuthConfigInput from middleware.go. -/
structure AuthConfigInput where
  defaultLeaseTTL : GoStr
  maxLeaseTTL : GoStr
deriving DecidableEq, Repr

/-- AuthInput from middleware.go. -/
structure AuthInput where
  type : GoStr
  description : GoStr
  config : AuthConfigInput
deriving DecidableEq, Repr

/-- AuthConfigOutput from middleware.go. -/
structure AuthConfigOutput where
  defaultLeaseTTL : Int
  maxLeaseTTL : Int
deriving DecidableEq, Repr

/-- AuthMountOutput from middleware.go. -/
structure AuthMountOutput where
  path : GoStr
  type : GoStr
  description : GoStr
  config : AuthConfigOutput
deriving DecidableEq, Repr

/-- PolicyInput from sys_policy.go. -/
structure PolicyInput where
  rules : GoStr
deriving DecidableEq, Repr

/-- The current mount listing of Vault, keyed by mount path. -/
abbrev MountsListing := List (GoStr × MountOutput)

/-- The current auth backend listing of Vault, keyed by mount path. -/
abbrev AuthsListing := List (GoStr × AuthMountOutput)

/-- One Vault API call issued by an executor, recorded in the trace. -/
inductive VaultOp where
  | mount (path : GoStr) (input : MountInput)
  | tuneMount (path : GoStr) (cfg : MountConfigInput)
  | enableAuth (path typ desc : GoStr)
  | disableAuth (path : GoStr)
  | putPolicy (name rules : GoStr)
  | deletePolicy (name : GoStr)
  | listMountsCall
  | listAuthCall
  | listPoliciesCall
  | unsealCall (key : GoStr)
  | resetUnsealProcessCall
deriving DecidableEq, Repr

/-- The seal state reported by Vault (the response shape of the unseal
and reset calls). -/
structure SealStatusResponse where
  sealed : Bool
  t : Int
  n : Int
  progress : Int
  version : GoStr
  clusterName : GoStr
  clusterID : GoStr
deriving DecidableEq, Repr

/-- The filesystem together with the json decoding of its files, as the
four deserialize helpers of the source observe it: each oracle is the
combined outcome of ioutil.ReadFile plus json.Unmarshal at a path. -/
structure FileSys where
  mountInputAt : GoStr → Except GoStr MountInput
  mountConfigInputAt : GoStr → Except GoStr MountConfigInput
  authInputAt : GoStr → Except GoStr AuthInput
  policyInputAt : GoStr → Except GoStr PolicyInput

/-- The Vault client, modelled as an oracle giving the outcome of each
API call the executors may issue. -/
structure VaultClient where
  mountRes : GoStr → MountInput → GoError
  tuneRes : GoStr → MountConfigInput → GoError
  enableAuthRes : GoStr → GoStr → GoStr → GoError
  disableAuthRes : GoStr → GoError
  putPolicyRes : GoStr → GoStr → GoError
  deletePolicyRes : GoStr → GoError
  listMountsRes : Except GoStr MountsListing
  listAuthRes : Except GoStr AuthsListing
  listPoliciesRes : Except GoStr (List GoStr)
  unsealRes : GoStr → Except GoStr SealStatusResponse
  resetRes : Except GoStr SealStatusResponse

/-- The message of ErrStateSysMountAddReqEmpty. -/
def errStateSysMountAddReqEmptyMsg : GoStr :=
  "no valid vault configuration requests submitted for adding /sys/mounts/".data

/-- The message of ErrStateSysMountUpdReqEmpty. -/
def errStateSysMountUpdReqEmptyMsg : GoStr :=
  "no valid vault configuration requests submitted for tuning /sys/mounts/".data

/-- The message of ErrStateSysAuthAddReqEmpty. -/
def errStateSysAuthAddReqEmptyMsg : GoStr :=
  "no valid vault configuration requests submitted for adding /sys/auth/".data

/-- The message of ErrStateSysAuthDelReqEmpty. -/
def errStateSysAuthDelReqEmptyMsg : GoStr :=
  "no valid vault configuration requests submitted for deleting /sys/auth/".data

/-- The message of ErrStateSysPolicyAddReqEmpty. -/
def errStateSysPolicyAddReqEmptyMsg : GoStr :=
  "no valid vault configuration requests submitted for adding /sys/policy/".data

/-- The message of ErrStateSysPolicyDelReqEmpty. -/
def errStateSysPolicyDelReqEmptyMsg : GoStr :=
  "no valid vault configuration requests submitted for deleting /sys/policy/".data

/-- hasSysMountRequests from sys_mounts.go. -/
def hasSysMountRequests (opts : ConfigOptsExp) : Bool :=
  !opts.sysMountAddReq.isEmpty || !opts.sysMountUpdReq.isEmpty

/-- hasSysAuthRequests from middleware.go. -/
def hasSysAuthRequests (opts : ConfigOptsExp) : Bool :=
  !opts.sysAuthAddReq.isEmpty || !opts.sysAuthDelReq.isEmpty

/-- hasSysPolicyRequests from sys_policy.go. -/
def hasSysPolicyRequests (opts : ConfigOptsExp) : Bool :=
  !opts.sysPolicyAddReq.isEmpty || !opts.sysPolicyDelReq.isEmpty

/-- The loop of addSysMounts: per entry, deserialize the file then issue
the mount call; return the trace of issued calls and the first error. -/
def addSysMountsLoop (fs : FileSys) (client : VaultClient) :
    List (GoStr × ConfigPathMeta) → List VaultOp × GoError
  | [] => ([], none)
  | (path, meta) :: rest =>
    match fs.mountInputAt meta.fullPath with
    | Except.error e => ([], some e)
    | Except.ok mi =>
      match client.mountRes path mi with
      | some e => ([VaultOp.mount path mi], some e)
      | none =>
        let r := addSysMountsLoop fs client rest
        (VaultOp.mount path mi :: r.1, r.2)

/-- addSysMounts from sys_mounts.go. -/
def addSysMounts (fs : FileSys) (client : VaultClient) (opts : ConfigOptsExp) :
    List VaultOp × GoError :=
  if opts.sysMountAddReq.isEmpty then ([], some errStateSysMountAddReqEmptyMsg)
  else addSysMountsLoop fs client opts.sysMountAddReq

/-- The loop of tuneSysMounts. -/
def tuneSysMountsLoop (fs : FileSys) (client : VaultClient) :
    List (GoStr × ConfigPathMeta) → List VaultOp × GoError
  | [] => ([], none)
  | (path, meta) :: rest =>
    match fs.mountConfigInputAt meta.fullPath with
    | Except.error e => ([], some e)
    | Except.ok mc =>
      match client.tuneRes path mc with
      | some e => ([VaultOp.tuneMount path mc], some e)
      | none =>
        let r := tuneSysMountsLoop fs client rest
        (VaultOp.tuneMount path mc :: r.1, r.2)

/-- tuneSysMounts from sys_mounts.go. -/
def tuneSysMounts (fs : FileSys) (client : VaultClient) (opts : ConfigOptsExp) :
    List VaultOp × GoError :=
  if opts.sysMountUpdReq.isEmpty then ([], some errStateSysMountUpdReqEmptyMsg)
  else tuneSysMountsLoop fs client opts.sysMountUpdReq

/-- The loop of addSysAuths. -/
def addSysAuthsLoop (fs : FileSys) (client : VaultClient) :
    List (GoStr × ConfigPathMeta) → List VaultOp × GoError
  | [] => ([], none)
  | (path, meta) :: rest =>
    match fs.authInputAt meta.fullPath with
    | Except.error e => ([], some e)
    | Except.ok ai =>
      match client.enableAuthRes path ai.type ai.description with
      | some e => ([VaultOp.enableAuth path ai.type ai.description], some e)
      | none =>
        let r := addSysAuthsLoop fs client rest
        (VaultOp.enableAuth path ai.type ai.description :: r.1, r.2)

/-- addSysAuths from middleware.go. -/
def addSysAuths (fs : FileSys) (client : VaultClient) (opts : ConfigOptsExp) :
    List VaultOp × GoError :=
  if opts.sysAuthAddReq.isEmpty then ([], some errStateSysAuthAddReqEmptyMsg)
  else addSysAuthsLoop fs client opts.sysAuthAddReq

/-- The loop of deleteSysAuths: no file deserialization, the call is
driven by the path alone. -/
def deleteSysAuthsLoop (client : VaultClient) :
    List (GoStr × ConfigPathMeta) → List VaultOp × GoError
  | [] => ([], none)
  | (path, _) :: rest =>
    match client.disableAuthRes path with
    | some e => ([VaultOp.disableAuth path], some e)
    | none =>
      let r := deleteSysAuthsLoop client rest
      (VaultOp.disableAuth path :: r.1, r.2)

/-- deleteSysAuths from middleware.go. -/
def deleteSysAuths (client : VaultClient) (opts : ConfigOptsExp) :
    List VaultOp × GoError :=
  if opts.sysAuthDelReq.isEmpty then ([], some errStateSysAuthDelReqEmptyMsg)
  else deleteSysAuthsLoop client opts.sysAuthDelReq

/-- The loop of addSysPolicies. -/
def addSysPoliciesLoop (fs : FileSys) (client : VaultClient) :
    List (GoStr × ConfigPathMeta) → List VaultOp × GoError
  | [] => ([], none)
  | (path, meta) :: rest =>
    match fs.policyInputAt meta.fullPath with
    | Except.error e => ([], some e)
    | Except.ok pi =>
      match client.putPolicyRes path pi.rules with
      | some e => ([VaultOp.putPolicy path pi.rules], some e)
      | none =>
        let r := addSysPoliciesLoop fs client rest
        (VaultOp.putPolicy path pi.rules :: r.1, r.2)

/-- addSysPolicies from sys_policy.go. -/
def addSysPolicies (fs : FileSys) (client : VaultClient) (opts : ConfigOptsExp) :
    List VaultOp × GoError :=
  if opts.sysPolicyAddReq.isEmpty then ([], some errStateSysPolicyAddReqEmptyMsg)
  else addSysPoliciesLoop fs client opts.sysPolicyAddReq

/-- The loop of deleteSysPolicies. -/
def deleteSysPoliciesLoop (client : VaultClient) :
    List (GoStr × ConfigPathMeta) → List VaultOp × GoError
  | [] => ([], none)
  | (path, _) :: rest =>
    match client.deletePolicyRes path with
    | some e => ([VaultOp.deletePolicy path], some e)
    | none =>
      let r := deleteSysPoliciesLoop client rest
      (VaultOp.deletePolicy path :: r.1, r.2)

/-- deleteSysPolicies from sys_policy.go. -/
def deleteSysPolicies (client : VaultClient) (opts : ConfigOptsExp) :
    List VaultOp × GoError :=
  if opts.sysPolicyDelReq.isEmpty then ([], some errStateSysPolicyDelReqEmptyMsg)
  else deleteSysPoliciesLoop client opts.sysPolicyDelReq

/-- listMounts from sys_mounts.go: re-list the mounts from Vault and
copy type, description and lease config (the path field of the copy is
left at its zero value, as in the source). -/
def listMounts (client : VaultClient) : Except GoStr MountsListing :=
  match client.listMountsRes with
  | Except.error e => Except.error e
  | Except.ok result =>
    Except.ok (result.map (fun kv =>
      (kv.1, { path := [], type := kv.2.type, description := kv.2.description,
               config := { defaultLeaseTTL := kv.2.config.defaultLeaseTTL,
                           maxLeaseTTL := kv.2.config.maxLeaseTTL } })))

/-- listAuths from middleware.go. -/
def listAuths (client : VaultClient) : Except GoStr AuthsListing :=
  match client.listAuthRes with
  | Except.error e => Except.error e
  | Except.ok result =>
    Except.ok (result.map (fun kv =>
      (kv.1, { path := [], type := kv.2.type, description := kv.2.description,
               config := { defaultLeaseTTL := kv.2.config.defaultLeaseTTL,
                           maxLeaseTTL := kv.2.config.maxLeaseTTL } })))

/-- listPolicies from sys_policy.go. -/
def listPolicies (client : VaultClient) : Except GoStr (List GoStr) :=
  client.listPoliciesRes

/-- The final re-listing phase of handleSysMounts: when changes were
made, re-query the authoritative mount list from Vault. -/
def handleSysMountsList (client : VaultClient) (madechgs : Bool) (cs : List VaultOp) :
    (Option MountsListing × GoError) × List VaultOp :=
  if madechgs then
    match listMounts client with
    | Except.error e => ((none, some e), cs ++ [VaultOp.listMountsCall])
    | Except.ok mounts => ((some mounts, none), cs ++ [VaultOp.listMountsCall])
  else ((none, none), cs)

/-- The tune phase of handleSysMounts. -/
def handleSysMountsTune (fs : FileSys) (client : VaultClient) (opts : ConfigOptsExp)
    (madechgs : Bool) (cs : List VaultOp) :
    (Option MountsListing × GoError) × List VaultOp :=
  if opts.sysMountUpdReq.isEmpty then handleSysMountsList client madechgs cs
  else
    match tuneSysMounts fs client opts with
    | (cs2, some e) => ((none, some e), cs ++ cs2)
    | (cs2, none) => handleSysMountsList client true (cs ++ cs2)

/-- handleSysMounts from sys_mounts.go: run the add phase then the tune
phase, then re-list the mounts when any change was made. -/
def handleSysMounts (fs : FileSys) (client : VaultClient) (opts : ConfigOptsExp) :
    (Option MountsListing × GoError) × List VaultOp :=
  if opts.sysMountAddReq.isEmpty then handleSysMountsTune fs client opts false []
  else
    match addSysMounts fs client opts with
    | (cs, some e) => ((none, some e), cs)
    | (cs, none) => handleSysMountsTune fs client opts true cs

/-- The final re-listing phase of handleSysAuths. -/
def handleSysAuthsList (client : VaultClient) (madechgs : Bool) (cs : List VaultOp) :
    (Option AuthsListing × GoError) × List VaultOp :=
  if madechgs then
    match listAuths client with
    | Except.error e => ((none, some e), cs ++ [VaultOp.listAuthCall])
    | Except.ok auths => ((some auths, none), cs ++ [VaultOp.listAuthCall])
  else ((none, none), cs)

/-- The disable phase of handleSysAuths. -/
def handleSysAuthsDel (client : VaultClient) (opts : ConfigOptsExp)
    (madechgs : Bool) (cs : List VaultOp) :
    (Option AuthsListing × GoError) × List VaultOp :=
  if opts.sysAuthDelReq.isEmpty then handleSysAuthsList client madechgs cs
  else
    match deleteSysAuths client opts with
    | (cs2, some e) => ((none, some e), cs ++ cs2)
    | (cs2, none) => handleSysAuthsList client true (cs ++ cs2)

/-- handleSysAuths from middleware.go. -/
def handleSysAuths (fs : FileSys) (client : VaultClient) (opts : ConfigOptsExp) :
    (Option AuthsListing × GoError) × List VaultOp :=
  if opts.sysAuthAddReq.isEmpty then handleSysAuthsDel client opts false []
  else
    match addSysAuths fs client opts with
    | (cs, some e) => ((none, some e), cs)
    | (cs, none) => handleSysAuthsDel client opts true cs

/-- The final re-listing phase of handleSysPolicies. -/
def handleSysPoliciesList (client : VaultClient) (madechgs : Bool) (cs : List VaultOp) :
    (Option (List GoStr) × GoError) × List VaultOp :=
  if madechgs then
    match listPolicies client with
    | Except.error e => ((none, some e), cs ++ [VaultOp.listPoliciesCall])
    | Except.ok policies => ((some policies, none), cs ++ [VaultOp.listPoliciesCall])
  else ((none, none), cs)

/-- The delete phase of handleSysPolicies. -/
def handleSysPoliciesDel (client : VaultClient) (opts : ConfigOptsExp)
    (madechgs : Bool) (cs : List VaultOp) :
    (Option (List GoStr) × GoError) × List VaultOp :=
  if opts.sysPolicyDelReq.isEmpty then handleSysPoliciesList client madechgs cs
  else
    match deleteSysPolicies client opts with
    | (cs2, some e) => ((none, some e), cs ++ cs2)
    | (cs2, none) => handleSysPoliciesList client true (cs ++ cs2)

/-- handleSysPolicies from sys_policy.go. -/
def handleSysPolicies (fs : FileSys) (client : VaultClient) (opts : ConfigOptsExp) :
    (Option (List GoStr) × GoError) × List VaultOp :=
  if opts.sysPolicyAddReq.isEmpty then handleSysPoliciesDel client opts false []
  else
    match addSysPolicies fs client opts with
    | (cs, some e) => ((none, some e), cs)
    | (cs, none) => handleSysPoliciesDel client opts true cs

/-- ConfigState from config_path_meta.go: the result snapshot of one
Configure invocation. A nil map or slice is `none`. -/
structure ConfigState where
  configID : GoStr
  mounts : Option MountsListing
  auths : Option AuthsListing
  policies : Option (List GoStr)
deriving DecidableEq, Repr

/-- The zero value of ConfigState. -/
def zeroConfigState : ConfigState :=
  { configID := [], mounts := none, auths := none, policies := none }

/-- The policy phase of handleRequests. -/
def handleRequestsPolicies (fs : FileSys) (client : VaultClient) (opts : ConfigOptsExp)
    (state : ConfigState) (cs : List VaultOp) : (ConfigState × GoError) × List VaultOp :=
  if hasSysPolicyRequests opts then
    match handleSysPolicies fs client opts with
    | ((_, some e), cs2) => ((state, some e), cs ++ cs2)
    | ((policies, none), cs2) =>
      (({ state with policies := policies }, none), cs ++ cs2)
  else ((state, none), cs)

/-- The auth phase of handleRequests. -/
def handleRequestsAuths (fs : FileSys) (client : VaultClient) (opts : ConfigOptsExp)
    (state : ConfigState) (cs : List VaultOp) : (ConfigState × GoError) × List VaultOp :=
  if hasSysAuthRequests opts then
    match handleSysAuths fs client opts with
    | ((_, some e), cs2) => ((state, some e), cs ++ cs2)
    | ((auths, none), cs2) =>
      handleRequestsPolicies fs client opts { state with auths := auths } (cs ++ cs2)
  else handleRequestsPolicies fs client opts state cs

/-- handleRequests from config_path_meta.go: run the three namespace
executors in the fixed order mounts, auths, policies; on the first
failing phase return the error together with the state assembled so
far. -/
def handleRequests (fs : FileSys) (client : VaultClient) (opts : ConfigOptsExp) :
    (ConfigState × GoError) × List VaultOp :=
  if hasSysMountRequests opts then
    match handleSysMounts fs client opts with
    | ((_, some e), cs) =>
      (({ configID := opts.configID, mounts := none, auths := none, policies := none },
        some e), cs)
    | ((mounts, none), cs) =>
      handleRequestsAuths fs client opts
        { configID := opts.configID, mounts := mounts, auths := none, policies := none } cs
  else
    handleRequestsAuths fs client opts
      { configID := opts.configID, mounts := none, auths := none, policies := none } []

/-- Configure from service.go: validate (and classify) the request,
build the Vault client (its construction outcome is an input), then
hand the expanded request to handleRequests. The second component of
the result is the trace of Vault API calls issued. -/
def Configure (fs : FileSys) (clientRes : Except GoStr VaultClient)
    (requestid token srcdata : GoStr) (walk : List WalkEntry) :
    (ConfigState × GoError) × List VaultOp :=
  match validateOpts requestid token srcdata walk with
  | (_, some e) => ((zeroConfigState, some e), [])
  | (cfgexpanded, none) =>
    match clientRes with
    | Except.error e => ((zeroConfigState, some e), [])
    | Except.ok client => handleRequests fs client cfgexpanded

/-- SealState from service.go. -/
structure SealState where
  sealed : Bool
  t : Int
  n : Int
  progress : Int
  version : GoStr
  clusterName : GoStr
  clusterID : GoStr
deriving DecidableEq, Repr

/-- The zero value of SealState. -/
def zeroSealState : SealState :=
  { sealed := false, t := 0, n := 0, progress := 0,
    version := [], clusterName := [], clusterID := [] }

/-- UnsealOptions from service.go. -/
structure UnsealOptions where
  key : GoStr
  reset : Bool
deriving DecidableEq, Repr

/-- The field-by-field copy of a Vault seal status response into a
SealState, as written twice inside Unseal. -/
def sealStateOf (resp : SealStatusResponse) : SealState :=
  { sealed := resp.sealed, t := resp.t, n := resp.n, progress := resp.progress,
    version := resp.version, clusterName := resp.clusterName,
    clusterID := resp.clusterID }

/-- The message of the missing key error of Unseal. -/
def errKeyMsg : GoStr :=
  "\x27key\x27 must specified, or \x27reset\x27 set to true".data

/-- Unseal from service.go: build the client (outcome an input), check
the key/reset precondition, then issue either a reset-unseal-process or
an unseal call. The second component is the trace of issued calls. -/
def Unseal (clientRes : Except GoStr VaultClient) (opts : UnsealOptions) :
    (SealState × GoError) × List VaultOp :=
  match clientRes with
  | Except.error e => ((zeroSealState, some e), [])
  | Except.ok client =>
    if !opts.reset && opts.key.isEmpty then
      ((zeroSealState, some errKeyMsg), [])
    else if opts.reset then
      match client.resetRes with
      | Except.error e => ((zeroSealState, some e), [VaultOp.resetUnsealProcessCall])
      | Except.ok resp => ((sealStateOf resp, none), [VaultOp.resetUnsealProcessCall])
    else
      match client.unsealRes opts.key with
      | Except.error e => ((zeroSealState, some e), [VaultOp.unsealCall opts.key])
      | Except.ok resp => ((sealStateOf resp, none), [VaultOp.unsealCall opts.key])

/-- The application configuration store consulted by the Vault client
factory, as an oracle. -/
structure AppConfig where
  isSet : GoStr → Bool
  getString : GoStr → GoStr
  getBool : GoStr → Bool

/-- The process environment, as an oracle: os.Getenv returns the empty
string for an unset variable. -/
abbrev Env := GoStr → GoStr

/-- TLSConfig as configured by DefaultTLSConfig (the fields of
vaultapi.TLSConfig that the source sets). -/
structure TLSConfig where
  caCert : GoStr
  caPath : GoStr
  clientCert : GoStr
  clientKey : GoStr
  insecure : Bool
deriving DecidableEq, Repr

/-- The message of the VAULT_SKIP_VERIFY parse failure. -/
def errParseSkipVerifyMsg : GoStr :=
  "Could not parse VAULT_SKIP_VERIFY".data

/-- DefaultTLSConfig from service.go: each field is taken from the
application configuration store when set and non-empty, otherwise from
the Vault CLI environment variable; the skip-verify flag from the
environment must parse as a boolean, else the call fails. -/
def DefaultTLSConfig (cfg : AppConfig) (env : Env) : Except GoStr TLSConfig :=
  let caCert :=
    if cfg.isSet "vault_ca_cert".data && !(cfg.getString "vault_ca_cert".data).isEmpty
    then cfg.getString "vault_ca_cert".data
    else if !(env "VAULT_CACERT".data).isEmpty then env "VAULT_CACERT".data else []
  let caPath :=
    if cfg.isSet "vault_ca_path".data && !(cfg.getString "vault_ca_path".data).isEmpty
    then cfg.getString "vault_ca_path".data
    else if !(env "VAULT_CAPATH".data).isEmpty then env "VAULT_CAPATH".data else []
  let clientCert :=
    if cfg.isSet "vault_client_cert".data && !(cfg.getString "vault_client_cert".data).isEmpty
    then cfg.getString "vault_client_cert".data
    else if !(env "VAULT_CLIENT_CERT".data).isEmpty then env "VAULT_CLIENT_CERT".data else []
  let clientKey :=
    if cfg.isSet "vault_client_key".data && !(cfg.getString "vault_client_key".data).isEmpty
    then cfg.getString "vault_client_key".data
    else if !(env "VAULT_CLIENT_KEY".data).isEmpty then env "VAULT_CLIENT_KEY".data else []
  if cfg.isSet "vault_skip_verify".data then
    Except.ok { caCert := caCert, caPath := caPath, clientCert := clientCert,
                clientKey := clientKey,
                insecure := cfg.getBool "vault_skip_verify".data }
  else if !(env "VAULT_SKIP_VERIFY".data).isEmpty then
    match goParseBool (env "VAULT_SKIP_VERIFY".data) with
    | some b =>
      Except.ok { caCert := caCert, caPath := caPath, clientCert := clientCert,
                  clientKey := clientKey, insecure := b }
    | none => Except.error errParseSkipVerifyMsg
  else
    Except.ok { caCert := caCert, caPath := caPath, clientCert := clientCert,
                clientKey := clientKey, insecure := false }

/-- The address part of vaultapi.DefaultConfig. -/
def defaultVaultAddress : GoStr := "https://127.0.0.1:8200".data

/-- The client configuration assembled by NewVaultClient. -/
structure ClientConfig where
  address : GoStr
  tls : TLSConfig
deriving DecidableEq, Repr

/-- NewVaultClient from service.go: build the TLS configuration (which
may fail), then the address from the configuration store or the
VAULT_ADDRESS environment variable, defaulting to Vault's own default
address. -/
def NewVaultClient (cfg : AppConfig) (env : Env) : Except GoStr ClientConfig :=
  match DefaultTLSConfig cfg env with
  | Except.error e => Except.error e
  | Except.ok tls =>
    let address :=
      if cfg.isSet "vault_address".data && !(cfg.getString "vault_address".data).isEmpty
      then cfg.getString "vault_address".data
      else if !(env "VAULT_ADDRESS".data).isEmpty then env "VAULT_ADDRESS".data
      else defaultVaultAddress
    Except.ok { address := address, tls := tls }

/-- String2Error from service.go: translate a string to an error, with
the empty string standing for the nil error. -/
def String2Error (s : GoStr) : GoError :=
  if s.isEmpty then none else some s

/-- Error2String from service.go: translate an error to a string, with
the nil error standing for the empty string. -/
def Error2String (err : GoError) : GoStr :=
  match err with
  | none => []
  | some e => e

theorem hasStart_take {s p : GoStr} (h : hasStart s p = true) : s.take p.length = p := by
  induction p generalizing s with
  | nil => simp
  | cons c ps ih =>
    cases s with
    | nil => simp [hasStart] at h
    | cons a as =>
      rw [hasStart, Bool.and_eq_true] at h
      obtain ⟨h1, h2⟩ := h
      have hac : a = c := beq_iff_eq.mp h1
      subst hac
      simp [List.take, ih h2]

theorem hasStart_conflict {s : GoStr} (p1 p2 : GoStr) (h : hasStart s p1 = true)
    (hlen : p2.length ≤ p1.length) (hne : p1.take p2.length ≠ p2) :
    hasStart s p2 = false := by
  cases h2 : hasStart s p2 with
  | false => rfl
  | true =>
    exfalso
    apply hne
    have e1 := hasStart_take h
    have e2 := hasStart_take h2
    calc p1.take p2.length = (s.take p1.length).take p2.length := by rw [e1]
      _ = s.take p2.length := by rw [List.take_take, Nat.min_eq_left hlen]
      _ = p2 := e2

/-- C1: for every discovered file whose containing directory, stripped
of BasePath, starts with "/sys/mounts/": a "/tune/" suffix makes the
classifier insert a tune entry into the mount-tune map keyed by the
path with the "/tune/" suffix stripped, and a bare trailing slash
(neither "/tune/" nor "/disable/") makes it insert an add entry into
the mount-add map keyed by the path with the trailing slash stripped;
in both cases the entry carries VaultEndPoint "/sys/mounts/" and the
corresponding mount action. -/
theorem C1_mount_classification (acc : ReqMap × ReqMap) (meta : ConfigPathMeta)
    (h : hasStart ((splitDirOf meta.fullPath).drop meta.basePath.length) sysmountslit = true) :
    (hasEnd (((splitDirOf meta.fullPath).drop meta.basePath.length).drop sysmountslit.length) tunelit = true →
      findSysMountsStep acc meta =
        (acc.1,
         mapInsert acc.2
           (dropEnd (((splitDirOf meta.fullPath).drop meta.basePath.length).drop sysmountslit.length) tunelit.length)
           { meta with
               vaultEndPoint := sysmountslit,
               configPath := dropEnd (((splitDirOf meta.fullPath).drop meta.basePath.length).drop sysmountslit.length) tunelit.length,
               action := ConfigActionType.sysMountUpdate })) ∧
    (hasEnd (((splitDirOf meta.fullPath).drop meta.basePath.length).drop sysmountslit.length) tunelit = false →
      hasEnd (((splitDirOf meta.fullPath).drop meta.basePath.length).drop sysmountslit.length) disablelit = false →
      hasEnd (((splitDirOf meta.fullPath).drop meta.basePath.length).drop sysmountslit.length) addlit = true →
      findSysMountsStep acc meta =
        (mapInsert acc.1
           (dropEnd (((splitDirOf meta.fullPath).drop meta.basePath.length).drop sysmountslit.length) addlit.length)
           { meta with
               vaultEndPoint := sysmountslit,
               configPath := dropEnd (((splitDirOf meta.fullPath).drop meta.basePath.length).drop sysmountslit.length) addlit.length,
               action := ConfigActionType.sysMountAdd },
         acc.2)) := by
  constructor
  · intro ht
    simp only [findSysMountsStep, h, ht, if_true]
  · intro ht hd ha
    simp only [findSysMountsStep, h, ht, hd, ha, if_true, Bool.false_eq_true, if_false]

/-- A concrete tune request file under /sys/mounts/. -/
def metaTuneW : ConfigPathMeta :=
  { fullPath := "/b/sys/mounts/postgresql/tune/postgresql.json".data,
    basePath := "/b".data, vaultEndPoint := [], configPath := [],
    action := ConfigActionType.sysMountAdd, file := "postgresql.json".data }

/-- A concrete add request file under /sys/mounts/. -/
def metaAddW : ConfigPathMeta :=
  { fullPath := "/b/sys/mounts/aws/aws.json".data,
    basePath := "/b".data, vaultEndPoint := [], configPath := [],
    action := ConfigActionType.sysMountAdd, file := "aws.json".data }

/-- Witness for C1 at concrete tune and add inputs. -/
theorem C1_mount_classification_witness :
    findSysMountsStep ([], []) metaTuneW =
      (([] : ReqMap),
       mapInsert []
         (dropEnd (((splitDirOf metaTuneW.fullPath).drop metaTuneW.basePath.length).drop sysmountslit.length) tunelit.length)
         { metaTuneW with
             vaultEndPoint := sysmountslit,
             configPath := dropEnd (((splitDirOf metaTuneW.fullPath).drop metaTuneW.basePath.length).drop sysmountslit.length) tunelit.length,
             action := ConfigActionType.sysMountUpdate }) ∧
    findSysMountsStep ([], []) metaAddW =
      (mapInsert []
         (dropEnd (((splitDirOf metaAddW.fullPath).drop metaAddW.basePath.length).drop sysmountslit.length) addlit.length)
         { metaAddW with
             vaultEndPoint := sysmountslit,
             configPath := dropEnd (((splitDirOf metaAddW.fullPath).drop metaAddW.basePath.length).drop sysmountslit.length) addlit.length,
             action := ConfigActionType.sysMountAdd },
       ([] : ReqMap)) :=
  ⟨(C1_mount_classification ([], []) metaTuneW (by decide)).1 (by decide),
   (C1_mount_classification ([], []) metaAddW (by decide)).2 (by decide) (by decide) (by decide)⟩

/-- C6: a file under /sys/mounts/ whose remaining suffix ends with
"/disable/" is skipped entirely: the mount classifier leaves its maps
unchanged, and so do the auth and policy classifiers (whose namespace
literals cannot match a /sys/mounts/ path), so no entry reaches any of
the six request maps and no action kind is contributed for the file. -/
theorem C6_mount_disable_skipped (acc acc2 acc3 : ReqMap × ReqMap) (meta : ConfigPathMeta)
    (h1 : hasStart ((splitDirOf meta.fullPath).drop meta.basePath.length) sysmountslit = true)
    (h2 : hasEnd (((splitDirOf meta.fullPath).drop meta.basePath.length).drop sysmountslit.length) disablelit = true) :
    findSysMountsStep acc meta = acc ∧
    findSysAuthsStep acc2 meta = acc2 ∧
    findSysPoliciesStep acc3 meta = acc3 := by
  have htune : hasEnd (((splitDirOf meta.fullPath).drop meta.basePath.length).drop sysmountslit.length) tunelit = false := by
    unfold hasEnd at h2 ⊢
    exact hasStart_conflict disablelit.reverse tunelit.reverse h2 (by decide) (by decide)
  have hauth : hasStart ((splitDirOf meta.fullPath).drop meta.basePath.length) sysauthslit = false :=
    hasStart_conflict sysmountslit sysauthslit h1 (by decide) (by decide)
  have hpol : hasStart ((splitDirOf meta.fullPath).drop meta.basePath.length) syspolicylit = false :=
    hasStart_conflict sysmountslit syspolicylit h1 (by decide) (by decide)
  refine ⟨?_, ?_, ?_⟩
  · simp only [findSysMountsStep, h1, htune, h2, if_true, Bool.false_eq_true, if_false]
  · simp only [findSysAuthsStep, hauth, Bool.false_eq_true, if_false]
  · simp only [findSysPoliciesStep, hpol, Bool.false_eq_true, if_false]

/-- A concrete disable request file under /sys/mounts/. -/
def metaDisableW : ConfigPathMeta :=
  { fullPath := "/b/sys/mounts/pg/disable/pg.json".data,
    basePath := "/b".data, vaultEndPoint := [], configPath := [],
    action := ConfigActionType.sysMountAdd, file := "pg.json".data }

/-- Witness for C6 at a concrete /sys/mounts/ disable input. -/
theorem C6_mount_disable_skipped_witness :
    findSysMountsStep ([], []) metaDisableW = ([], []) ∧
    findSysAuthsStep ([], []) metaDisableW = ([], []) ∧
    findSysPoliciesStep ([], []) metaDisableW = ([], []) :=
  C6_mount_disable_skipped ([], []) ([], []) ([], []) metaDisableW (by decide) (by decide)

/-- A walk entry whose name has the extension ".bak", not ".json". -/
def walkEntryBak : WalkEntry :=
  { path := "/b/sys/mounts/pg/config.json.bak".data,
    name := "config.json.bak".data, isDir := false }

/-- C3: the claim states that a walked file is wrapped and passed to
classification if and only if its name ends with ".json". The code
instead matches the extension argument as a regular expression, so a
file named config.json.bak (extension ".bak") is selected even though
its name does not end with ".json": evaluation of filesByExt at that
input shows the divergence. -/
theorem C3_extension_filter_bug :
    filesByExt "/b".data [walkEntryBak] =
      [{ fullPath := walkEntryBak.path, basePath := "/b".data,
         vaultEndPoint := [], configPath := [],
         action := ConfigActionType.sysMountAdd, file := walkEntryBak.name }] ∧
    hasEnd walkEntryBak.name ".json".data = false := by
  constructor
  · rfl
  · decide

/-- A filesystem oracle on which every deserialization fails. -/
def fsTrivial : FileSys :=
  { mountInputAt := fun _ => Except.error "no file".data,
    mountConfigInputAt := fun _ => Except.error "no file".data,
    authInputAt := fun _ => Except.error "no file".data,
    policyInputAt := fun _ => Except.error "no file".data }

/-- A Vault client oracle on which every call succeeds with empty
results. -/
def clientTrivial : VaultClient :=
  { mountRes := fun _ _ => none, tuneRes := fun _ _ => none,
    enableAuthRes := fun _ _ _ => none, disableAuthRes := fun _ => none,
    putPolicyRes := fun _ _ => none, deletePolicyRes := fun _ => none,
    listMountsRes := Except.ok [], listAuthRes := Except.ok [],
    listPoliciesRes := Except.ok [],
    unsealRes := fun _ => Except.ok ⟨false, 0, 0, 0, [], [], []⟩,
    resetRes := Except.ok ⟨false, 0, 0, 0, [], [], []⟩ }

/-- C5: when classification of the fetched bundle yields zero action
kinds, Configure fails with the ErrSrcReqEmpty error, returns the zero
ConfigState, and issues no Vault API call (the trace is empty). -/
theorem C5_empty_actions_fail (fs : FileSys) (clientRes : Except GoStr VaultClient)
    (requestid token srcdata : GoStr) (walk : List WalkEntry)
    (h : (categorize (initConfigOpts requestid token srcdata) walk).actions = []) :
    Configure fs clientRes requestid token srcdata walk =
      ((zeroConfigState, some errSrcReqEmptyMsg), []) := by
  unfold Configure validateOpts
  simp only [h, List.isEmpty_nil, if_true]

/-- A walk containing only a json file outside every recognized
namespace. -/
def walkUnrecognized : List WalkEntry :=
  [{ path := "/b/other/x.json".data, name := "x.json".data, isDir := false }]

/-- Witness for C5 at a bundle containing only an unrecognized path. -/
theorem C5_empty_actions_fail_witness :
    Configure fsTrivial (Except.ok clientTrivial) "r1".data "tok".data "/b".data walkUnrecognized =
      ((zeroConfigState, some errSrcReqEmptyMsg), []) :=
  C5_empty_actions_fail fsTrivial (Except.ok clientTrivial) "r1".data "tok".data "/b".data
    walkUnrecognized (by decide)

/-- C8: when the configuration store does not set vault_skip_verify and
the environment variable VAULT_SKIP_VERIFY holds a non-empty string
that does not parse as a boolean, DefaultTLSConfig fails with the parse
error and NewVaultClient (used by every Service operation to construct
its client) propagates the same failure. -/
theorem C8_skip_verify_parse_failure (cfg : AppConfig) (env : Env)
    (h1 : cfg.isSet "vault_skip_verify".data = false)
    (h2 : (env "VAULT_SKIP_VERIFY".data).isEmpty = false)
    (h3 : goParseBool (env "VAULT_SKIP_VERIFY".data) = none) :
    DefaultTLSConfig cfg env = Except.error errParseSkipVerifyMsg ∧
    NewVaultClient cfg env = Except.error errParseSkipVerifyMsg := by
  have hd : DefaultTLSConfig cfg env = Except.error errParseSkipVerifyMsg := by
    unfold DefaultTLSConfig
    simp only [h1, h2, h3, Bool.false_eq_true, if_false, Bool.not_false, if_true]
  refine ⟨hd, ?_⟩
  unfold NewVaultClient
  rw [hd]

/-- A configuration store with nothing set. -/
def cfgUnsetW : AppConfig :=
  { isSet := fun _ => false, getString := fun _ => [], getBool := fun _ => false }

/-- An environment in which VAULT_SKIP_VERIFY holds a malformed boolean. -/
def envBadSkipVerifyW : Env :=
  fun k => if k == "VAULT_SKIP_VERIFY".data then "yes".data else []

/-- Witness for C8 at a concrete malformed VAULT_SKIP_VERIFY value. -/
theorem C8_skip_verify_parse_failure_witness :
    DefaultTLSConfig cfgUnsetW envBadSkipVerifyW = Except.error errParseSkipVerifyMsg ∧
    NewVaultClient cfgUnsetW envBadSkipVerifyW = Except.error errParseSkipVerifyMsg :=
  C8_skip_verify_parse_failure cfgUnsetW envBadSkipVerifyW (by decide) (by decide) (by decide)

/-- C9: for UnsealOptions with Reset false and an empty Key, Unseal
issues neither an unseal nor a reset-unseal-process call, returns the
zero SealState together with an error, and when the client was built
successfully that error is the missing key message. -/
theorem C9_unseal_requires_key (clientRes : Except GoStr VaultClient)
    (opts : UnsealOptions) (hr : opts.reset = false) (hk : opts.key = []) :
    (Unseal clientRes opts).2 = [] ∧
    (Unseal clientRes opts).1.1 = zeroSealState ∧
    ((Unseal clientRes opts).1.2).isSome = true ∧
    (∀ client, clientRes = Except.ok client →
      (Unseal clientRes opts).1.2 = some errKeyMsg) := by
  cases clientRes with
  | error e =>
    refine ⟨rfl, rfl, rfl, ?_⟩
    intro client hok
    cases hok
  | ok client =>
    unfold Unseal
    simp [hr, hk]

/-- Witness for C9 at a concrete client and empty options. -/
theorem C9_unseal_requires_key_witness :
    (Unseal (Except.ok clientTrivial) ⟨[], false⟩).2 = [] ∧
    (Unseal (Except.ok clientTrivial) ⟨[], false⟩).1.1 = zeroSealState ∧
    (Unseal (Except.ok clientTrivial) ⟨[], false⟩).1.2 = some errKeyMsg :=
  have h := C9_unseal_requires_key (Except.ok clientTrivial) ⟨[], false⟩ rfl rfl
  ⟨h.1, h.2.1, h.2.2.2 clientTrivial rfl⟩

/-- C10: the claim asserts that String2Error and Error2String round
trip on every non-nil error; the error built from the empty message
refutes it, because Error2String maps it to the empty string, which
String2Error sends back to the nil error, not to a non-nil one. -/
theorem C10_roundtrip_counterexample :
    (some ([] : GoStr)) ≠ (none : GoError) ∧
    String2Error (Error2String (some ([] : GoStr))) = none := by
  constructor
  · intro h
    cases h
  · rfl

/-- C10 amended: String2Error of the empty string is nil, Error2String
of nil is the empty string, Error2String inverts String2Error on every
string, and String2Error inverts Error2String on every non-nil error
whose message is non-empty (an error with an empty message collapses to
the nil error). -/
theorem C10_roundtrip_amended :
    String2Error [] = none ∧
    Error2String none = [] ∧
    (∀ s : GoStr, Error2String (String2Error s) = s) ∧
    (∀ m : GoStr, m ≠ [] → String2Error (Error2String (some m)) = some m) := by
  refine ⟨rfl, rfl, ?_, ?_⟩
  · intro s
    cases s with
    | nil => rfl
    | cons c cs => rfl
  · intro m hm
    cases m with
    | nil => exact absurd rfl hm
    | cons c cs => rfl

/-- Witness for the amended C10 at a concrete non-empty message. -/
theorem C10_roundtrip_amended_witness :
    ('a' :: []) ≠ ([] : GoStr) ∧
    String2Error (Error2String (some ('a' :: []))) = some ('a' :: []) :=
  ⟨by decide, C10_roundtrip_amended.2.2.2 ('a' :: []) (by decide)⟩

theorem handleSysMountsList_ok {client : VaultClient} {cs cs' : List VaultOp}
    {m : Option MountsListing}
    (h : handleSysMountsList client true cs = ((m, none), cs')) : m.isSome = true := by
  unfold handleSysMountsList at h
  rw [if_pos rfl] at h
  cases hl : listMounts client with
  | error e =>
    rw [hl] at h
    simp only [Prod.mk.injEq] at h
    exact Option.noConfusion h.1.2
  | ok mounts =>
    rw [hl] at h
    simp only [Prod.mk.injEq] at h
    rw [← h.1.1]
    rfl

theorem handleSysMountsTune_ok {fs : FileSys} {client : VaultClient} {opts : ConfigOptsExp}
    {mc : Bool} {cs cs' : List VaultOp} {m : Option MountsListing}
    (h : handleSysMountsTune fs client opts mc cs = ((m, none), cs'))
    (hreq : mc = true ∨ opts.sysMountUpdReq.isEmpty = false) : m.isSome = true := by
  unfold handleSysMountsTune at h
  by_cases hupd : opts.sysMountUpdReq.isEmpty
  · rw [if_pos hupd] at h
    rcases hreq with hmc | hne
    · subst hmc
      exact handleSysMountsList_ok h
    · rw [hupd] at hne
      cases hne
  · rw [if_neg hupd] at h
    cases ht : tuneSysMounts fs client opts with
    | mk cs2 err =>
      cases err with
      | some e =>
        rw [ht] at h
        simp only [Prod.mk.injEq] at h
        exact Option.noConfusion h.1.2
      | none =>
        rw [ht] at h
        exact handleSysMountsList_ok h

theorem handleSysMounts_ok {fs : FileSys} {client : VaultClient} {opts : ConfigOptsExp}
    {m : Option MountsListing} {cs' : List VaultOp}
    (hreq : hasSysMountRequests opts = true)
    (h : handleSysMounts fs client opts = ((m, none), cs')) : m.isSome = true := by
  unfold handleSysMounts at h
  by_cases hadd : opts.sysMountAddReq.isEmpty
  · rw [if_pos hadd] at h
    apply handleSysMountsTune_ok h
    right
    unfold hasSysMountRequests at hreq
    rw [hadd] at hreq
    simpa using hreq
  · rw [if_neg hadd] at h
    cases ha : addSysMounts fs client opts with
    | mk cs1 err =>
      cases err with
      | some e =>
        rw [ha] at h
        simp only [Prod.mk.injEq] at h
        exact Option.noConfusion h.1.2
      | none =>
        rw [ha] at h
        exact handleSysMountsTune_ok h (Or.inl rfl)

theorem handleSysAuthsList_ok {client : VaultClient} {cs cs' : List VaultOp}
    {a : Option AuthsListing}
    (h : handleSysAuthsList client true cs = ((a, none), cs')) : a.isSome = true := by
  unfold handleSysAuthsList at h
  rw [if_pos rfl] at h
  cases hl : listAuths client with
  | error e =>
    rw [hl] at h
    simp only [Prod.mk.injEq] at h
    exact Option.noConfusion h.1.2
  | ok auths =>
    rw [hl] at h
    simp only [Prod.mk.injEq] at h
    rw [← h.1.1]
    rfl

theorem handleSysAuthsDel_ok {client : VaultClient} {opts : ConfigOptsExp}
    {mc : Bool} {cs cs' : List VaultOp} {a : Option AuthsListing}
    (h : handleSysAuthsDel client opts mc cs = ((a, none), cs'))
    (hreq : mc = true ∨ opts.sysAuthDelReq.isEmpty = false) : a.isSome = true := by
  unfold handleSysAuthsDel at h
  by_cases hdel : opts.sysAuthDelReq.isEmpty
  · rw [if_pos hdel] at h
    rcases hreq with hmc | hne
    · subst hmc
      exact handleSysAuthsList_ok h
    · rw [hdel] at hne
      cases hne
  · rw [if_neg hdel] at h
    cases ht : deleteSysAuths client opts with
    | mk cs2 err =>
      cases err with
      | some e =>
        rw [ht] at h
        simp only [Prod.mk.injEq] at h
        exact Option.noConfusion h.1.2
      | none =>
        rw [ht] at h
        exact handleSysAuthsList_ok h

theorem handleSysAuths_ok {fs : FileSys} {client : VaultClient} {opts : ConfigOptsExp}
    {a : Option AuthsListing} {cs' : List VaultOp}
    (hreq : hasSysAuthRequests opts = true)
    (h : handleSysAuths fs client opts = ((a, none), cs')) : a.isSome = true := by
  unfold handleSysAuths at h
  by_cases hadd : opts.sysAuthAddReq.isEmpty
  · rw [if_pos hadd] at h
    apply handleSysAuthsDel_ok h
    right
    unfold hasSysAuthRequests at hreq
    rw [hadd] at hreq
    simpa using hreq
  · rw [if_neg hadd] at h
    cases ha : addSysAuths fs client opts with
    | mk cs1 err =>
      cases err with
      | some e =>
        rw [ha] at h
        simp only [Prod.mk.injEq] at h
        exact Option.noConfusion h.1.2
      | none =>
        rw [ha] at h
        exact handleSysAuthsDel_ok h (Or.inl rfl)

theorem handleSysPoliciesList_ok {client : VaultClient} {cs cs' : List VaultOp}
    {p : Option (List GoStr)}
    (h : handleSysPoliciesList client true cs = ((p, none), cs')) : p.isSome = true := by
  unfold handleSysPoliciesList at h
  rw [if_pos rfl] at h
  cases hl : listPolicies client with
  | error e =>
    rw [hl] at h
    simp only [Prod.mk.injEq] at h
    exact Option.noConfusion h.1.2
  | ok policies =>
    rw [hl] at h
    simp only [Prod.mk.injEq] at h
    rw [← h.1.1]
    rfl

theorem handleSysPoliciesDel_ok {client : VaultClient} {opts : ConfigOptsExp}
    {mc : Bool} {cs cs' : List VaultOp} {p : Option (List GoStr)}
    (h : handleSysPoliciesDel client opts mc cs = ((p, none), cs'))
    (hreq : mc = true ∨ opts.sysPolicyDelReq.isEmpty = false) : p.isSome = true := by
  unfold handleSysPoliciesDel at h
  by_cases hdel : opts.sysPolicyDelReq.isEmpty
  · rw [if_pos hdel] at h
    rcases hreq with hmc | hne
    · subst hmc
      exact handleSysPoliciesList_ok h
    · rw [hdel] at hne
      cases hne
  · rw [if_neg hdel] at h
    cases ht : deleteSysPolicies client opts with
    | mk cs2 err =>
      cases err with
      | some e =>
        rw [ht] at h
        simp only [Prod.mk.injEq] at h
        exact Option.noConfusion h.1.2
      | none =>
        rw [ht] at h
        exact handleSysPoliciesList_ok h

theorem handleSysPolicies_ok {fs : FileSys} {client : VaultClient} {opts : ConfigOptsExp}
    {p : Option (List GoStr)} {cs' : List VaultOp}
    (hreq : hasSysPolicyRequests opts = true)
    (h : handleSysPolicies fs client opts = ((p, none), cs')) : p.isSome = true := by
  unfold handleSysPolicies at h
  by_cases hadd : opts.sysPolicyAddReq.isEmpty
  · rw [if_pos hadd] at h
    apply handleSysPoliciesDel_ok h
    right
    unfold hasSysPolicyRequests at hreq
    rw [hadd] at hreq
    simpa using hreq
  · rw [if_neg hadd] at h
    cases ha : addSysPolicies fs client opts with
    | mk cs1 err =>
      cases err with
      | some e =>
        rw [ha] at h
        simp only [Prod.mk.injEq] at h
        exact Option.noConfusion h.1.2
      | none =>
        rw [ha] at h
        exact handleSysPoliciesDel_ok h (Or.inl rfl)

theorem handleRequestsPolicies_ok {fs : FileSys} {client : VaultClient}
    {opts : ConfigOptsExp} {st st' : ConfigState} {cs cs' : List VaultOp}
    (h : handleRequestsPolicies fs client opts st cs = ((st', none), cs')) :
    st'.configID = st.configID ∧ st'.mounts = st.mounts ∧ st'.auths = st.auths ∧
    (hasSysPolicyRequests opts = false → st'.policies = st.policies) ∧
    (hasSysPolicyRequests opts = true → st'.policies.isSome = true) := by
  unfold handleRequestsPolicies at h
  by_cases hp : hasSysPolicyRequests opts
  · rw [if_pos hp] at h
    cases hh : handleSysPolicies fs client opts with
    | mk pe cs2 =>
      cases pe with
      | mk p err =>
        cases err with
        | some e =>
          rw [hh] at h
          simp only [Prod.mk.injEq] at h
          exact Option.noConfusion h.1.2
        | none =>
          rw [hh] at h
          simp only [Prod.mk.injEq] at h
          obtain ⟨⟨h1, -⟩, -⟩ := h
          subst h1
          refine ⟨rfl, rfl, rfl, ?_, ?_⟩
          · intro hfalse
            rw [hp] at hfalse
            cases hfalse
          · intro _
            exact handleSysPolicies_ok hp hh
  · rw [if_neg hp] at h
    simp only [Prod.mk.injEq] at h
    obtain ⟨⟨h1, -⟩, -⟩ := h
    subst h1
    refine ⟨rfl, rfl, rfl, fun _ => rfl, ?_⟩
    intro htrue
    exact absurd htrue hp

theorem handleRequestsAuths_ok {fs : FileSys} {client : VaultClient}
    {opts : ConfigOptsExp} {st st' : ConfigState} {cs cs' : List VaultOp}
    (h : handleRequestsAuths fs client opts st cs = ((st', none), cs')) :
    st'.configID = st.configID ∧ st'.mounts = st.mounts ∧
    (hasSysAuthRequests opts = false → st'.auths = st.auths) ∧
    (hasSysAuthRequests opts = true → st'.auths.isSome = true) ∧
    (hasSysPolicyRequests opts = false → st'.policies = st.policies) ∧
    (hasSysPolicyRequests opts = true → st'.policies.isSome = true) := by
  unfold handleRequestsAuths at h
  by_cases haq : hasSysAuthRequests opts
  · rw [if_pos haq] at h
    cases hh : handleSysAuths fs client opts with
    | mk ae cs2 =>
      cases ae with
      | mk a err =>
        cases err with
        | some e =>
          rw [hh] at h
          simp only [Prod.mk.injEq] at h
          exact Option.noConfusion h.1.2
        | none =>
          rw [hh] at h
          have hc := handleRequestsPolicies_ok h
          have hsome := handleSysAuths_ok haq hh
          refine ⟨hc.1, hc.2.1, ?_, ?_, hc.2.2.2.1, hc.2.2.2.2⟩
          · intro hfalse
            rw [haq] at hfalse
            cases hfalse
          · intro _
            rw [hc.2.2.1]
            exact hsome
  · rw [if_neg haq] at h
    have hc := handleRequestsPolicies_ok h
    refine ⟨hc.1, hc.2.1, fun _ => hc.2.2.1, ?_, hc.2.2.2.1, hc.2.2.2.2⟩
    intro htrue
    exact absurd htrue haq

/-- C4: on every successful handleRequests run, a namespace's field of
the returned ConfigState is nil exactly when the request contained no
classified entries of that namespace's action kinds; the fields of
namespaces that did have requests are populated (non-nil). -/
theorem C4_conditional_population (fs : FileSys) (client : VaultClient)
    (opts : ConfigOptsExp) (st : ConfigState) (calls : List VaultOp)
    (h : handleRequests fs client opts = ((st, none), calls)) :
    (hasSysMountRequests opts = false ↔ st.mounts = none) ∧
    (hasSysAuthRequests opts = false ↔ st.auths = none) ∧
    (hasSysPolicyRequests opts = false ↔ st.policies = none) := by
  unfold handleRequests at h
  by_cases hm : hasSysMountRequests opts
  · rw [if_pos hm] at h
    cases hh : handleSysMounts fs client opts with
    | mk me cs2 =>
      cases me with
      | mk mts err =>
        cases err with
        | some e =>
          rw [hh] at h
          simp only [Prod.mk.injEq] at h
          exact Option.noConfusion h.1.2
        | none =>
          rw [hh] at h
          have hc := handleRequestsAuths_ok h
          have hsome := handleSysMounts_ok hm hh
          refine ⟨?_, ?_, ?_⟩
          · constructor
            · intro hfalse
              rw [hm] at hfalse
              cases hfalse
            · intro hnone
              exfalso
              rw [hc.2.1] at hnone
              have hmts : mts = none := hnone
              rw [hmts] at hsome
              simp at hsome
          · constructor
            · intro hfalse
              rw [hc.2.2.1 hfalse]
            · intro hnone
              by_cases haq : hasSysAuthRequests opts
              · have := hc.2.2.2.1 haq
                rw [hnone] at this
                cases this
              · simpa using haq
          · constructor
            · intro hfalse
              rw [hc.2.2.2.2.1 hfalse]
            · intro hnone
              by_cases hpq : hasSysPolicyRequests opts
              · have := hc.2.2.2.2.2 hpq
                rw [hnone] at this
                cases this
              · simpa using hpq
  · rw [if_neg hm] at h
    have hc := handleRequestsAuths_ok h
    refine ⟨?_, ?_, ?_⟩
    · constructor
      · intro _
        rw [hc.2.1]
      · intro _
        simpa using hm
    · constructor
      · intro hfalse
        rw [hc.2.2.1 hfalse]
      · intro hnone
        by_cases haq : hasSysAuthRequests opts
        · have := hc.2.2.2.1 haq
          rw [hnone] at this
          cases this
        · simpa using haq
    · constructor
      · intro hfalse
        rw [hc.2.2.2.2.1 hfalse]
      · intro hnone
        by_cases hpq : hasSysPolicyRequests opts
        · have := hc.2.2.2.2.2 hpq
          rw [hnone] at this
          cases this
        · simpa using hpq

/-- A filesystem oracle on which every deserialization succeeds with
simple fixed contents. -/
def fsOkW : FileSys :=
  { mountInputAt := fun _ => Except.ok ⟨"postgresql".data, [], ⟨[], []⟩⟩,
    mountConfigInputAt := fun _ => Except.ok ⟨"7h".data, "21h".data⟩,
    authInputAt := fun _ => Except.ok ⟨"userpass".data, [], ⟨[], []⟩⟩,
    policyInputAt := fun _ => Except.ok ⟨"r1".data⟩ }

/-- A concrete mount add request entry. -/
def mountAddEntryW : GoStr × ConfigPathMeta :=
  ("pg".data,
   { fullPath := "/b/sys/mounts/pg/pg.json".data, basePath := "/b".data,
     vaultEndPoint := sysmountslit, configPath := "pg".data,
     action := ConfigActionType.sysMountAdd, file := "pg.json".data })

/-- A request with exactly one mount add entry and nothing else. -/
def optsC4W : ConfigOptsExp :=
  { configID := "r1".data, token := "tok".data, sourceDir := "/b".data,
    actions := [ConfigActionType.sysMountAdd],
    sysMountAddReq := [mountAddEntryW], sysMountUpdReq := [],
    sysAuthAddReq := [], sysAuthDelReq := [],
    sysPolicyAddReq := [], sysPolicyDelReq := [] }

/-- Witness for C4 at a concrete successful mount-only request. -/
theorem C4_conditional_population_witness :
    (hasSysMountRequests optsC4W = false ↔
      (handleRequests fsOkW clientTrivial optsC4W).1.1.mounts = none) ∧
    (hasSysAuthRequests optsC4W = false ↔
      (handleRequests fsOkW clientTrivial optsC4W).1.1.auths = none) ∧
    (hasSysPolicyRequests optsC4W = false ↔
      (handleRequests fsOkW clientTrivial optsC4W).1.1.policies = none) :=
  C4_conditional_population fsOkW clientTrivial optsC4W
    ((handleRequests fsOkW clientTrivial optsC4W).1.1)
    ((handleRequests fsOkW clientTrivial optsC4W).2) (by decide)

/-- C2 amended: a Configure invocation that fails in the auths phase
after a successful mounts phase returns the error together with a
ConfigState already carrying the mounts result of this invocation (the
in-progress state is returned alongside the error, not discarded). -/
theorem C2_partial_state_on_error (fs : FileSys) (client : VaultClient)
    (requestid token srcdata : GoStr) (walk : List WalkEntry)
    (opts : ConfigOptsExp) (m : Option MountsListing) (a : Option AuthsListing)
    (e : GoStr) (c1 c2 : List VaultOp)
    (hv : validateOpts requestid token srcdata walk = (opts, none))
    (hm : hasSysMountRequests opts = true)
    (ha : hasSysAuthRequests opts = true)
    (hms : handleSysMounts fs client opts = ((m, none), c1))
    (has : handleSysAuths fs client opts = ((a, some e), c2)) :
    Configure fs (Except.ok client) requestid token srcdata walk =
      (({ configID := opts.configID, mounts := m, auths := none, policies := none },
        some e), c1 ++ c2) := by
  have hr : handleRequests fs client opts =
      (({ configID := opts.configID, mounts := m, auths := none, policies := none },
        some e), c1 ++ c2) := by
    unfold handleRequests
    rw [if_pos hm]
    simp only [hms]
    unfold handleRequestsAuths
    rw [if_pos ha]
    simp only [has]
  unfold Configure
  simp only [hv, hr]

/-- The walk of a bundle holding one mount add file and one auth add
file. -/
def walkC2 : List WalkEntry :=
  [{ path := "/b/sys/mounts/pg/pg.json".data, name := "pg.json".data, isDir := false },
   { path := "/b/sys/auth/up/up.json".data, name := "up.json".data, isDir := false }]

/-- A client on which mount calls and listings succeed but enabling any
auth backend fails. -/
def clientAuthFailW : VaultClient :=
  { clientTrivial with enableAuthRes := fun _ _ _ => some "boom".data }

/-- C2: the claim that a failed Configure returns no partial
ConfigState is refuted by a concrete bundle whose mounts phase succeeds
and whose auths phase fails: the returned state carries the mount
listing of the already-applied mounts namespace next to the error. -/
theorem C2_partial_state_counterexample :
    ((Configure fsOkW (Except.ok clientAuthFailW) "r1".data "tok".data "/b".data walkC2).1.2).isSome = true ∧
    (Configure fsOkW (Except.ok clientAuthFailW) "r1".data "tok".data "/b".data walkC2).1.1.mounts ≠ none := by
  constructor
  · decide
  · decide

/-- Witness for the amended C2 at the same concrete bundle. -/
theorem C2_partial_state_on_error_witness :
    Configure fsOkW (Except.ok clientAuthFailW) "r1".data "tok".data "/b".data walkC2 =
      (({ configID := (validateOpts "r1".data "tok".data "/b".data walkC2).1.configID,
          mounts := (handleSysMounts fsOkW clientAuthFailW (validateOpts "r1".data "tok".data "/b".data walkC2).1).1.1,
          auths := none, policies := none },
        some "boom".data),
       (handleSysMounts fsOkW clientAuthFailW (validateOpts "r1".data "tok".data "/b".data walkC2).1).2 ++
         (handleSysAuths fsOkW clientAuthFailW (validateOpts "r1".data "tok".data "/b".data walkC2).1).2) :=
  C2_partial_state_on_error fsOkW clientAuthFailW "r1".data "tok".data "/b".data walkC2
    ((validateOpts "r1".data "tok".data "/b".data walkC2).1)
    ((handleSysMounts fsOkW clientAuthFailW (validateOpts "r1".data "tok".data "/b".data walkC2).1).1.1)
    ((handleSysAuths fsOkW clientAuthFailW (validateOpts "r1".data "tok".data "/b".data walkC2).1).1.1)
    "boom".data
    ((handleSysMounts fsOkW clientAuthFailW (validateOpts "r1".data "tok".data "/b".data walkC2).1).2)
    ((handleSysAuths fsOkW clientAuthFailW (validateOpts "r1".data "tok".data "/b".data walkC2).1).2)
    (by decide) (by decide) (by decide) (by decide) (by decide)

/-- The per-entry success condition of the mount add loop: the file
deserializes and the mount call succeeds. -/
def mountEntryOk (fs : FileSys) (client : VaultClient) (p : GoStr × ConfigPathMeta) : Bool :=
  match fs.mountInputAt p.2.fullPath with
  | Except.error _ => false
  | Except.ok mi => (client.mountRes p.1 mi).isNone

/-- The per-entry failure condition of the mount add loop with error
`e`: either deserialization fails with `e`, or the mount call does. -/
def mountEntryFails (fs : FileSys) (client : VaultClient)
    (p : GoStr × ConfigPathMeta) (e : GoStr) : Bool :=
  match fs.mountInputAt p.2.fullPath with
  | Except.error e2 => e2 == e
  | Except.ok mi => client.mountRes p.1 mi == some e

theorem addSysMountsLoop_seq (fs : FileSys) (client : VaultClient)
    (pre : List (GoStr × ConfigPathMeta)) (bad : GoStr × ConfigPathMeta)
    (post : List (GoStr × ConfigPathMeta)) (e : GoStr)
    (hpre : ∀ p ∈ pre, mountEntryOk fs client p = true)
    (hbad : mountEntryFails fs client bad e = true) :
    addSysMountsLoop fs client (pre ++ bad :: post) =
      ((addSysMountsLoop fs client pre).1 ++ (addSysMountsLoop fs client [bad]).1, some e) := by
  induction pre with
  | nil =>
    obtain ⟨bp, bm⟩ := bad
    unfold mountEntryFails at hbad
    cases hd : fs.mountInputAt bm.fullPath with
    | error e2 =>
      rw [hd] at hbad
      have he : e2 = e := by simpa using hbad
      subst he
      simp [addSysMountsLoop, hd]
    | ok mi =>
      rw [hd] at hbad
      have hc : client.mountRes bp mi = some e := by simpa using hbad
      simp [addSysMountsLoop, hd, hc]
  | cons p pre ih =>
    obtain ⟨pp, pm⟩ := p
    have hp := hpre (pp, pm) (by simp)
    unfold mountEntryOk at hp
    have hrest : ∀ q ∈ pre, mountEntryOk fs client q = true :=
      fun q hq => hpre q (by simp [hq])
    cases hd : fs.mountInputAt pm.fullPath with
    | error e2 =>
      rw [hd] at hp
      cases hp
    | ok mi =>
      rw [hd] at hp
      have hc : client.mountRes pp mi = none :=
        Option.isNone_iff_eq_none.mp (by simpa using hp)
      have ihh := ih hrest
      simp [List.cons_append, addSysMountsLoop, hd, hc, ihh]

/-- The per-entry success condition of the mount tune loop. -/
def tuneEntryOk (fs : FileSys) (client : VaultClient) (p : GoStr × ConfigPathMeta) : Bool :=
  match fs.mountConfigInputAt p.2.fullPath with
  | Except.error _ => false
  | Except.ok mc => (client.tuneRes p.1 mc).isNone

/-- The per-entry failure condition of the mount tune loop. -/
def tuneEntryFails (fs : FileSys) (client : VaultClient)
    (p : GoStr × ConfigPathMeta) (e : GoStr) : Bool :=
  match fs.mountConfigInputAt p.2.fullPath with
  | Except.error e2 => e2 == e
  | Except.ok mc => client.tuneRes p.1 mc == some e

theorem tuneSysMountsLoop_seq (fs : FileSys) (client : VaultClient)
    (pre : List (GoStr × ConfigPathMeta)) (bad : GoStr × ConfigPathMeta)
    (post : List (GoStr × ConfigPathMeta)) (e : GoStr)
    (hpre : ∀ p ∈ pre, tuneEntryOk fs client p = true)
    (hbad : tuneEntryFails fs client bad e = true) :
    tuneSysMountsLoop fs client (pre ++ bad :: post) =
      ((tuneSysMountsLoop fs client pre).1 ++ (tuneSysMountsLoop fs client [bad]).1, some e) := by
  induction pre with
  | nil =>
    obtain ⟨bp, bm⟩ := bad
    unfold tuneEntryFails at hbad
    cases hd : fs.mountConfigInputAt bm.fullPath with
    | error e2 =>
      rw [hd] at hbad
      have he : e2 = e := by simpa using hbad
      subst he
      simp [tuneSysMountsLoop, hd]
    | ok mc =>
      rw [hd] at hbad
      have hc : client.tuneRes bp mc = some e := by simpa using hbad
      simp [tuneSysMountsLoop, hd, hc]
  | cons p pre ih =>
    obtain ⟨pp, pm⟩ := p
    have hp := hpre (pp, pm) (by simp)
    unfold tuneEntryOk at hp
    have hrest : ∀ q ∈ pre, tuneEntryOk fs client q = true :=
      fun q hq => hpre q (by simp [hq])
    cases hd : fs.mountConfigInputAt pm.fullPath with
    | error e2 =>
      rw [hd] at hp
      cases hp
    | ok mc =>
      rw [hd] at hp
      have hc : client.tuneRes pp mc = none :=
        Option.isNone_iff_eq_none.mp (by simpa using hp)
      have ihh := ih hrest
      simp [List.cons_append, tuneSysMountsLoop, hd, hc, ihh]

/-- The per-entry success condition of the auth add loop. -/
def authAddEntryOk (fs : FileSys) (client : VaultClient) (p : GoStr × ConfigPathMeta) : Bool :=
  match fs.authInputAt p.2.fullPath with
  | Except.error _ => false
  | Except.ok ai => (client.enableAuthRes p.1 ai.type ai.description).isNone

/-- The per-entry failure condition of the auth add loop. -/
def authAddEntryFails (fs : FileSys) (client : VaultClient)
    (p : GoStr × ConfigPathMeta) (e : GoStr) : Bool :=
  match fs.authInputAt p.2.fullPath with
  | Except.error e2 => e2 == e
  | Except.ok ai => client.enableAuthRes p.1 ai.type ai.description == some e

theorem addSysAuthsLoop_seq (fs : FileSys) (client : VaultClient)
    (pre : List (GoStr × ConfigPathMeta)) (bad : GoStr × ConfigPathMeta)
    (post : List (GoStr × ConfigPathMeta)) (e : GoStr)
    (hpre : ∀ p ∈ pre, authAddEntryOk fs client p = true)
    (hbad : authAddEntryFails fs client bad e = true) :
    addSysAuthsLoop fs client (pre ++ bad :: post) =
      ((addSysAuthsLoop fs client pre).1 ++ (addSysAuthsLoop fs client [bad]).1, some e) := by
  induction pre with
  | nil =>
    obtain ⟨bp, bm⟩ := bad
    unfold authAddEntryFails at hbad
    cases hd : fs.authInputAt bm.fullPath with
    | error e2 =>
      rw [hd] at hbad
      have he : e2 = e := by simpa using hbad
      subst he
      simp [addSysAuthsLoop, hd]
    | ok ai =>
      rw [hd] at hbad
      have hc : client.enableAuthRes bp ai.type ai.description = some e := by simpa using hbad
      simp [addSysAuthsLoop, hd, hc]
  | cons p pre ih =>
    obtain ⟨pp, pm⟩ := p
    have hp := hpre (pp, pm) (by simp)
    unfold authAddEntryOk at hp
    have hrest : ∀ q ∈ pre, authAddEntryOk fs client q = true :=
      fun q hq => hpre q (by simp [hq])
    cases hd : fs.authInputAt pm.fullPath with
    | error e2 =>
      rw [hd] at hp
      cases hp
    | ok ai =>
      rw [hd] at hp
      have hc : client.enableAuthRes pp ai.type ai.description = none :=
        Option.isNone_iff_eq_none.mp (by simpa using hp)
      have ihh := ih hrest
      simp [List.cons_append, addSysAuthsLoop, hd, hc, ihh]

/-- The per-entry success condition of the auth disable loop. -/
def authDelEntryOk (client : VaultClient) (p : GoStr × ConfigPathMeta) : Bool :=
  (client.disableAuthRes p.1).isNone

/-- The per-entry failure condition of the auth disable loop. -/
def authDelEntryFails (client : VaultClient) (p : GoStr × ConfigPathMeta) (e : GoStr) : Bool :=
  client.disableAuthRes p.1 == some e

theorem deleteSysAuthsLoop_seq (client : VaultClient)
    (pre : List (GoStr × ConfigPathMeta)) (bad : GoStr × ConfigPathMeta)
    (post : List (GoStr × ConfigPathMeta)) (e : GoStr)
    (hpre : ∀ p ∈ pre, authDelEntryOk client p = true)
    (hbad : authDelEntryFails client bad e = true) :
    deleteSysAuthsLoop client (pre ++ bad :: post) =
      ((deleteSysAuthsLoop client pre).1 ++ (deleteSysAuthsLoop client [bad]).1, some e) := by
  induction pre with
  | nil =>
    obtain ⟨bp, bm⟩ := bad
    unfold authDelEntryFails at hbad
    have hc : client.disableAuthRes bp = some e := by simpa using hbad
    simp [deleteSysAuthsLoop, hc]
  | cons p pre ih =>
    obtain ⟨pp, pm⟩ := p
    have hp := hpre (pp, pm) (by simp)
    unfold authDelEntryOk at hp
    have hrest : ∀ q ∈ pre, authDelEntryOk client q = true :=
      fun q hq => hpre q (by simp [hq])
    have hc : client.disableAuthRes pp = none :=
      Option.isNone_iff_eq_none.mp (by simpa using hp)
    have ihh := ih hrest
    simp [List.cons_append, deleteSysAuthsLoop, hc, ihh]

/-- The per-entry success condition of the policy add loop. -/
def polAddEntryOk (fs : FileSys) (client : VaultClient) (p : GoStr × ConfigPathMeta) : Bool :=
  match fs.policyInputAt p.2.fullPath with
  | Except.error _ => false
  | Except.ok pin => (client.putPolicyRes p.1 pin.rules).isNone

/-- The per-entry failure condition of the policy add loop. -/
def polAddEntryFails (fs : FileSys) (client : VaultClient)
    (p : GoStr × ConfigPathMeta) (e : GoStr) : Bool :=
  match fs.policyInputAt p.2.fullPath with
  | Except.error e2 => e2 == e
  | Except.ok pin => client.putPolicyRes p.1 pin.rules == some e

theorem addSysPoliciesLoop_seq (fs : FileSys) (client : VaultClient)
    (pre : List (GoStr × ConfigPathMeta)) (bad : GoStr × ConfigPathMeta)
    (post : List (GoStr × ConfigPathMeta)) (e : GoStr)
    (hpre : ∀ p ∈ pre, polAddEntryOk fs client p = true)
    (hbad : polAddEntryFails fs client bad e = true) :
    addSysPoliciesLoop fs client (pre ++ bad :: post) =
      ((addSysPoliciesLoop fs client pre).1 ++ (addSysPoliciesLoop fs client [bad]).1, some e) := by
  induction pre with
  | nil =>
    obtain ⟨bp, bm⟩ := bad
    unfold polAddEntryFails at hbad
    cases hd : fs.policyInputAt bm.fullPath with
    | error e2 =>
      rw [hd] at hbad
      have he : e2 = e := by simpa using hbad
      subst he
      simp [addSysPoliciesLoop, hd]
    | ok pin =>
      rw [hd] at hbad
      have hc : client.putPolicyRes bp pin.rules = some e := by simpa using hbad
      simp [addSysPoliciesLoop, hd, hc]
  | cons p pre ih =>
    obtain ⟨pp, pm⟩ := p
    have hp := hpre (pp, pm) (by simp)
    unfold polAddEntryOk at hp
    have hrest : ∀ q ∈ pre, polAddEntryOk fs client q = true :=
      fun q hq => hpre q (by simp [hq])
    cases hd : fs.policyInputAt pm.fullPath with
    | error e2 =>
      rw [hd] at hp
      cases hp
    | ok pin =>
      rw [hd] at hp
      have hc : client.putPolicyRes pp pin.rules = none :=
        Option.isNone_iff_eq_none.mp (by simpa using hp)
      have ihh := ih hrest
      simp [List.cons_append, addSysPoliciesLoop, hd, hc, ihh]

/-- The per-entry success condition of the policy delete loop. -/
def polDelEntryOk (client : VaultClient) (p : GoStr × ConfigPathMeta) : Bool :=
  (client.deletePolicyRes p.1).isNone

/-- The per-entry failure condition of the policy delete loop. -/
def polDelEntryFails (client : VaultClient) (p : GoStr × ConfigPathMeta) (e : GoStr) : Bool :=
  client.deletePolicyRes p.1 == some e

theorem deleteSysPoliciesLoop_seq (client : VaultClient)
    (pre : List (GoStr × ConfigPathMeta)) (bad : GoStr × ConfigPathMeta)
    (post : List (GoStr × ConfigPathMeta)) (e : GoStr)
    (hpre : ∀ p ∈ pre, polDelEntryOk client p = true)
    (hbad : polDelEntryFails client bad e = true) :
    deleteSysPoliciesLoop client (pre ++ bad :: post) =
      ((deleteSysPoliciesLoop client pre).1 ++ (deleteSysPoliciesLoop client [bad]).1, some e) := by
  induction pre with
  | nil =>
    obtain ⟨bp, bm⟩ := bad
    unfold polDelEntryFails at hbad
    have hc : client.deletePolicyRes bp = some e := by simpa using hbad
    simp [deleteSysPoliciesLoop, hc]
  | cons p pre ih =>
    obtain ⟨pp, pm⟩ := p
    have hp := hpre (pp, pm) (by simp)
    unfold polDelEntryOk at hp
    have hrest : ∀ q ∈ pre, polDelEntryOk client q = true :=
      fun q hq => hpre q (by simp [hq])
    have hc : client.deletePolicyRes pp = none :=
      Option.isNone_iff_eq_none.mp (by simpa using hp)
    have ihh := ih hrest
    simp [List.cons_append, deleteSysPoliciesLoop, hc, ihh]

/-- C7: each namespace executor issues Vault API calls only when its
request map is non-empty (an empty map yields the defensive error and
an empty call trace), and on the first failing per-path operation the
batch stops: for a request map splitting as pre, bad, post with every
pre entry succeeding and bad failing with error e, the executor returns
exactly the calls of pre followed by the calls of bad (nothing from
post, nothing rolled back) together with that error. Stated for all
six executors: mount add and tune, auth add and disable, policy add and
delete. -/
theorem C7_executor_batch (fs : FileSys) (client : VaultClient) :
    ((∀ opts : ConfigOptsExp, opts.sysMountAddReq.isEmpty = true →
        addSysMounts fs client opts = ([], some errStateSysMountAddReqEmptyMsg)) ∧
     (∀ (opts : ConfigOptsExp) (pre : List (GoStr × ConfigPathMeta))
         (bad : GoStr × ConfigPathMeta) (post : List (GoStr × ConfigPathMeta)) (e : GoStr),
        opts.sysMountAddReq = pre ++ bad :: post →
        (∀ p ∈ pre, mountEntryOk fs client p = true) →
        mountEntryFails fs client bad e = true →
        addSysMounts fs client opts =
          ((addSysMountsLoop fs client pre).1 ++ (addSysMountsLoop fs client [bad]).1, some e))) ∧
    ((∀ opts : ConfigOptsExp, opts.sysMountUpdReq.isEmpty = true →
        tuneSysMounts fs client opts = ([], some errStateSysMountUpdReqEmptyMsg)) ∧
     (∀ (opts : ConfigOptsExp) (pre : List (GoStr × ConfigPathMeta))
         (bad : GoStr × ConfigPathMeta) (post : List (GoStr × ConfigPathMeta)) (e : GoStr),
        opts.sysMountUpdReq = pre ++ bad :: post →
        (∀ p ∈ pre, tuneEntryOk fs client p = true) →
        tuneEntryFails fs client bad e = true →
        tuneSysMounts fs client opts =
          ((tuneSysMountsLoop fs client pre).1 ++ (tuneSysMountsLoop fs client [bad]).1, some e))) ∧
    ((∀ opts : ConfigOptsExp, opts.sysAuthAddReq.isEmpty = true →
        addSysAuths fs client opts = ([], some errStateSysAuthAddReqEmptyMsg)) ∧
     (∀ (opts : ConfigOptsExp) (pre : List (GoStr × ConfigPathMeta))
         (bad : GoStr × ConfigPathMeta) (post : List (GoStr × ConfigPathMeta)) (e : GoStr),
        opts.sysAuthAddReq = pre ++ bad :: post →
        (∀ p ∈ pre, authAddEntryOk fs client p = true) →
        authAddEntryFails fs client bad e = true →
        addSysAuths fs client opts =
          ((addSysAuthsLoop fs client pre).1 ++ (addSysAuthsLoop fs client [bad]).1, some e))) ∧
    ((∀ opts : ConfigOptsExp, opts.sysAuthDelReq.isEmpty = true →
        deleteSysAuths client opts = ([], some errStateSysAuthDelReqEmptyMsg)) ∧
     (∀ (opts : ConfigOptsExp) (pre : List (GoStr × ConfigPathMeta))
         (bad : GoStr × ConfigPathMeta) (post : List (GoStr × ConfigPathMeta)) (e : GoStr),
        opts.sysAuthDelReq = pre ++ bad :: post →
        (∀ p ∈ pre, authDelEntryOk client p = true) →
        authDelEntryFails client bad e = true →
        deleteSysAuths client opts =
          ((deleteSysAuthsLoop client pre).1 ++ (deleteSysAuthsLoop client [bad]).1, some e))) ∧
    ((∀ opts : ConfigOptsExp, opts.sysPolicyAddReq.isEmpty = true →
        addSysPolicies fs client opts = ([], some errStateSysPolicyAddReqEmptyMsg)) ∧
     (∀ (opts : ConfigOptsExp) (pre : List (GoStr × ConfigPathMeta))
         (bad : GoStr × ConfigPathMeta) (post : List (GoStr × ConfigPathMeta)) (e : GoStr),
        opts.sysPolicyAddReq = pre ++ bad :: post →
        (∀ p ∈ pre, polAddEntryOk fs client p = true) →
        polAddEntryFails fs client bad e = true →
        addSysPolicies fs client opts =
          ((addSysPoliciesLoop fs client pre).1 ++ (addSysPoliciesLoop fs client [bad]).1, some e))) ∧
    ((∀ opts : ConfigOptsExp, opts.sysPolicyDelReq.isEmpty = true →
        deleteSysPolicies client opts = ([], some errStateSysPolicyDelReqEmptyMsg)) ∧
     (∀ (opts : ConfigOptsExp) (pre : List (GoStr × ConfigPathMeta))
         (bad : GoStr × ConfigPathMeta) (post : List (GoStr × ConfigPathMeta)) (e : GoStr),
        opts.sysPolicyDelReq = pre ++ bad :: post →
        (∀ p ∈ pre, polDelEntryOk client p = true) →
        polDelEntryFails client bad e = true →
        deleteSysPolicies client opts =
          ((deleteSysPoliciesLoop client pre).1 ++ (deleteSysPoliciesLoop client [bad]).1, some e))) := by
  refine ⟨⟨?_, ?_⟩, ⟨?_, ?_⟩, ⟨?_, ?_⟩, ⟨?_, ?_⟩, ⟨?_, ?_⟩, ⟨?_, ?_⟩⟩
  · intro opts h
    unfold addSysMounts
    rw [h, if_pos rfl]
  · intro opts pre bad post e hmap hpre hbad
    unfold addSysMounts
    rw [hmap]
    have hne : (pre ++ bad :: post).isEmpty = false := by cases pre <;> rfl
    rw [hne]
    simp only [Bool.false_eq_true, if_false]
    exact addSysMountsLoop_seq fs client pre bad post e hpre hbad
  · intro opts h
    unfold tuneSysMounts
    rw [h, if_pos rfl]
  · intro opts pre bad post e hmap hpre hbad
    unfold tuneSysMounts
    rw [hmap]
    have hne : (pre ++ bad :: post).isEmpty = false := by cases pre <;> rfl
    rw [hne]
    simp only [Bool.false_eq_true, if_false]
    exact tuneSysMountsLoop_seq fs client pre bad post e hpre hbad
  · intro opts h
    unfold addSysAuths
    rw [h, if_pos rfl]
  · intro opts pre bad post e hmap hpre hbad
    unfold addSysAuths
    rw [hmap]
    have hne : (pre ++ bad :: post).isEmpty = false := by cases pre <;> rfl
    rw [hne]
    simp only [Bool.false_eq_true, if_false]
    exact addSysAuthsLoop_seq fs client pre bad post e hpre hbad
  · intro opts h
    unfold deleteSysAuths
    rw [h, if_pos rfl]
  · intro opts pre bad post e hmap hpre hbad
    unfold deleteSysAuths
    rw [hmap]
    have hne : (pre ++ bad :: post).isEmpty = false := by cases pre <;> rfl
    rw [hne]
    simp only [Bool.false_eq_true, if_false]
    exact deleteSysAuthsLoop_seq client pre bad post e hpre hbad
  · intro opts h
    unfold addSysPolicies
    rw [h, if_pos rfl]
  · intro opts pre bad post e hmap hpre hbad
    unfold addSysPolicies
    rw [hmap]
    have hne : (pre ++ bad :: post).isEmpty = false := by cases pre <;> rfl
    rw [hne]
    simp only [Bool.false_eq_true, if_false]
    exact addSysPoliciesLoop_seq fs client pre bad post e hpre hbad
  · intro opts h
    unfold deleteSysPolicies
    rw [h, if_pos rfl]
  · intro opts pre bad post e hmap hpre hbad
    unfold deleteSysPolicies
    rw [hmap]
    have hne : (pre ++ bad :: post).isEmpty = false := by cases pre <;> rfl
    rw [hne]
    simp only [Bool.false_eq_true, if_false]
    exact deleteSysPoliciesLoop_seq client pre bad post e hpre hbad

/-- A client on which every per-path call fails exactly on the path
"bad" and succeeds elsewhere. -/
def clientBadPathW : VaultClient :=
  { mountRes := fun path _ => if path == "bad".data then some "boom".data else none,
    tuneRes := fun path _ => if path == "bad".data then some "boom".data else none,
    enableAuthRes := fun path _ _ => if path == "bad".data then some "boom".data else none,
    disableAuthRes := fun path => if path == "bad".data then some "boom".data else none,
    putPolicyRes := fun path _ => if path == "bad".data then some "boom".data else none,
    deletePolicyRes := fun path => if path == "bad".data then some "boom".data else none,
    listMountsRes := Except.ok [], listAuthRes := Except.ok [],
    listPoliciesRes := Except.ok [],
    unsealRes := fun _ => Except.ok ⟨false, 0, 0, 0, [], [], []⟩,
    resetRes := Except.ok ⟨false, 0, 0, 0, [], [], []⟩ }

/-- A request with all six maps empty. -/
def emptyOptsW : ConfigOptsExp := initConfigOpts "r1".data "tok".data "/b".data

/-- A request map entry whose per-path call succeeds. -/
def goodEntryW : GoStr × ConfigPathMeta :=
  ("ok".data,
   { fullPath := "/b/f.json".data, basePath := "/b".data, vaultEndPoint := [],
     configPath := "ok".data, action := ConfigActionType.sysMountAdd,
     file := "f.json".data })

/-- A request map entry whose per-path call fails. -/
def badEntryW : GoStr × ConfigPathMeta :=
  ("bad".data,
   { fullPath := "/b/g.json".data, basePath := "/b".data, vaultEndPoint := [],
     configPath := "bad".data, action := ConfigActionType.sysMountAdd,
     file := "g.json".data })

/-- A request whose six maps each hold a succeeding entry followed by a
failing one. -/
def optsSeqW : ConfigOptsExp :=
  { emptyOptsW with
      sysMountAddReq := [goodEntryW, badEntryW],
      sysMountUpdReq := [goodEntryW, badEntryW],
      sysAuthAddReq := [goodEntryW, badEntryW],
      sysAuthDelReq := [goodEntryW, badEntryW],
      sysPolicyAddReq := [goodEntryW, badEntryW],
      sysPolicyDelReq := [goodEntryW, badEntryW] }

/-- Witness for C7: each executor evaluated on the empty request and on
a batch whose second entry fails. -/
theorem C7_executor_batch_witness :
    (addSysMounts fsOkW clientBadPathW emptyOptsW =
      ([], some errStateSysMountAddReqEmptyMsg) ∧
     addSysMounts fsOkW clientBadPathW optsSeqW =
      ((addSysMountsLoop fsOkW clientBadPathW [goodEntryW]).1 ++
        (addSysMountsLoop fsOkW clientBadPathW [badEntryW]).1, some "boom".data)) ∧
    (tuneSysMounts fsOkW clientBadPathW emptyOptsW =
      ([], some errStateSysMountUpdReqEmptyMsg) ∧
     tuneSysMounts fsOkW clientBadPathW optsSeqW =
      ((tuneSysMountsLoop fsOkW clientBadPathW [goodEntryW]).1 ++
        (tuneSysMountsLoop fsOkW clientBadPathW [badEntryW]).1, some "boom".data)) ∧
    (addSysAuths fsOkW clientBadPathW emptyOptsW =
      ([], some errStateSysAuthAddReqEmptyMsg) ∧
     addSysAuths fsOkW clientBadPathW optsSeqW =
      ((addSysAuthsLoop fsOkW clientBadPathW [goodEntryW]).1 ++
        (addSysAuthsLoop fsOkW clientBadPathW [badEntryW]).1, some "boom".data)) ∧
    (deleteSysAuths clientBadPathW emptyOptsW =
      ([], some errStateSysAuthDelReqEmptyMsg) ∧
     deleteSysAuths clientBadPathW optsSeqW =
      ((deleteSysAuthsLoop clientBadPathW [goodEntryW]).1 ++
        (deleteSysAuthsLoop clientBadPathW [badEntryW]).1, some "boom".data)) ∧
    (addSysPolicies fsOkW clientBadPathW emptyOptsW =
      ([], some errStateSysPolicyAddReqEmptyMsg) ∧
     addSysPolicies fsOkW clientBadPathW optsSeqW =
      ((addSysPoliciesLoop fsOkW clientBadPathW [goodEntryW]).1 ++
        (addSysPoliciesLoop fsOkW clientBadPathW [badEntryW]).1, some "boom".data)) ∧
    (deleteSysPolicies clientBadPathW emptyOptsW =
      ([], some errStateSysPolicyDelReqEmptyMsg) ∧
     deleteSysPolicies clientBadPathW optsSeqW =
      ((deleteSysPoliciesLoop clientBadPathW [goodEntryW]).1 ++
        (deleteSysPoliciesLoop clientBadPathW [badEntryW]).1, some "boom".data)) :=
  have h := C7_executor_batch fsOkW clientBadPathW
  ⟨⟨h.1.1 emptyOptsW rfl,
    h.1.2 optsSeqW [goodEntryW] badEntryW [] "boom".data rfl (by decide) (by decide)⟩,
   ⟨h.2.1.1 emptyOptsW rfl,
    h.2.1.2 optsSeqW [goodEntryW] badEntryW [] "boom".data rfl (by decide) (by decide)⟩,
   ⟨h.2.2.1.1 emptyOptsW rfl,
    h.2.2.1.2 optsSeqW [goodEntryW] badEntryW [] "boom".data rfl (by decide) (by decide)⟩,
   ⟨h.2.2.2.1.1 emptyOptsW rfl,
    h.2.2.2.1.2 optsSeqW [goodEntryW] badEntryW [] "boom".data rfl (by decide) (by decide)⟩,
   ⟨h.2.2.2.2.1.1 emptyOptsW rfl,
    h.2.2.2.2.1.2 optsSeqW [goodEntryW] badEntryW [] "boom".data rfl (by decide) (by decide)⟩,
   ⟨h.2.2.2.2.2.1 emptyOptsW rfl,
    h.2.2.2.2.2.2 optsSeqW [goodEntryW] badEntryW [] "boom".data rfl (by decide) (by decide)⟩⟩
